import Mathlib

/-!
Verification of the extension-marketplace core: a shallow embedding of the
`ExtensionManager` (registry store, lock protocol, manifest/path/version
validators) and the `GitHubAPIProxy` (request cache, GraphQL batch fetch with
REST fallback), together with proofs of the specified behavioural properties.

JavaScript strings are embedded as `List Char`; JavaScript values appearing in
manifests and API responses are embedded as the inductive `JSVal`; machine file
systems, clocks and the network are passed explicitly as state/oracle
parameters.  Each definition mirrors one function of the source.
-/

set_option maxRecDepth 10000

namespace Marketplace

/-- JavaScript runtime values, as far as the validators inspect them:
`null`, booleans, numbers, strings, arrays and plain objects (an object is an
ordered association list of own enumerable properties). -/
inductive JSVal : Type where
  | vNull : JSVal
  | vBool (b : Bool) : JSVal
  | vNum (n : Int) : JSVal
  | vStr (s : String) : JSVal
  | vArr (xs : List JSVal) : JSVal
  | vObj (fields : List (String × JSVal)) : JSVal

namespace JSVal

/-- JavaScript truthiness: `undefined` is handled separately via `Option`. -/
def truthy : JSVal → Bool
  | vNull => false
  | vBool b => b
  | vNum n => n != 0
  | vStr s => s != ""
  | vArr _ => true
  | vObj _ => true

/-- `typeof v === 'string'`. -/
def isStr : JSVal → Bool
  | vStr _ => true
  | _ => false

/-- `typeof v === 'object'` (true for objects, arrays and `null`). -/
def typeofObject : JSVal → Bool
  | vObj _ => true
  | vArr _ => true
  | vNull => true
  | _ => false

/-- `Array.isArray(v)`. -/
def isArray : JSVal → Bool
  | vArr _ => true
  | _ => false

/-- Property lookup `v[key]`; `none` plays the role of `undefined`.
Arrays and primitives yield `undefined` for the (non-numeric) property
names the validators use. -/
def getField : JSVal → String → Option JSVal
  | vObj fields, key => (fields.find? (fun p => p.1 == key)).map (·.2)
  | _, _ => none

mutual

/-- String coercion as performed by template-literal interpolation:
`null` and the primitives print their literal forms, an array joins its
elements with commas (`Array.prototype.toString`, where a `null` element
renders as the empty string), and a plain object prints
`[object Object]`. -/
def display : JSVal → String
  | vNull => "null"
  | vBool true => "true"
  | vBool false => "false"
  | vNum n => toString n
  | vStr s => s
  | vArr xs => displayList xs
  | vObj _ => "[object Object]"

/-- `Array.prototype.join(',')` over stringified elements. -/
def displayList : List JSVal → String
  | [] => ""
  | [vNull] => ""
  | [x] => display x
  | vNull :: y :: rest => "," ++ displayList (y :: rest)
  | x :: y :: rest => display x ++ "," ++ displayList (y :: rest)

end

end JSVal

mutual

/-- JavaScript `SameValueZero`, the key equality of `Map`, on embedded
values: by value on `null`, booleans, numbers and strings (exact JS
semantics), structurally on arrays and objects.  In JavaScript composite
values compare by reference; every registry operation below uses one and the
same key value throughout a call, and the registry work-flow keys records by
string ids, so structural equality agrees with the source on the states these
operations reach. -/
def jsEq : JSVal → JSVal → Bool
  | .vNull, .vNull => true
  | .vBool a, .vBool b => a == b
  | .vNum a, .vNum b => a == b
  | .vStr a, .vStr b => a == b
  | .vArr xs, .vArr ys => jsEqList xs ys
  | .vObj fs, .vObj gs => jsEqFields fs gs
  | _, _ => false

/-- Pointwise `jsEq` on array elements. -/
def jsEqList : List JSVal → List JSVal → Bool
  | [], [] => true
  | x :: xs, y :: ys => jsEq x y && jsEqList xs ys
  | _, _ => false

/-- Pointwise `jsEq` on object fields. -/
def jsEqFields : List (String × JSVal) → List (String × JSVal) → Bool
  | [], [] => true
  | (k, v) :: fs, (l, w) :: gs => k == l && jsEq v w && jsEqFields fs gs
  | _, _ => false

end

/-! ## Character-level string helpers

The JavaScript code works on strings via regular expressions, `split`,
`startsWith` and concatenation.  These are embedded as structurally recursive
functions on `List Char`. -/

/-- Split a character list on a separator character, JavaScript
`String.prototype.split` style: `"a/b" ↦ [a, b]`, `"/a" ↦ ["", a]`,
`"" ↦ [""]`. -/
def splitOnChar (sep : Char) : List Char → List (List Char)
  | [] => [[]]
  | c :: rest =>
    let tail := splitOnChar sep rest
    if c == sep then
      [] :: tail
    else
      match tail with
      | [] => [[c]]
      | seg :: segs => (c :: seg) :: segs

/-- Maximal leading run of decimal digits, and the remainder. -/
def digitSpan (s : List Char) : List Char × List Char :=
  (s.takeWhile Char.isDigit, s.dropWhile Char.isDigit)

/-- `parseInt` on a non-empty run of decimal digits. -/
def digitsToNat (ds : List Char) : Nat :=
  ds.foldl (fun n c => 10 * n + (c.toNat - 48)) 0

/-- Substring containment (`e.includes(pat)` for `List Char`). -/
def containsSub (pat s : List Char) : Bool :=
  match s with
  | [] => pat.isPrefixOf ([] : List Char)
  | _ :: rest => pat.isPrefixOf s || containsSub pat rest

/-! ## VersionMatcher — `ExtensionManager.checkVersionCompatibility` -/

/-- One attempt of the unanchored regex `/(\d+)\.(\d+)\.(\d+)/` at the head of
the list: a maximal digit run, a dot, a maximal digit run, a dot, a maximal
digit run.  (Backtracking inside a digit run can never make the following `.`
match, so the greedy match is exact.) -/
def matchTripleHere (s : List Char) : Option (Nat × Nat × Nat) :=
  let (d1, r1) := digitSpan s
  if d1.isEmpty then none
  else
    match r1 with
    | '.' :: r2 =>
      let (d2, r3) := digitSpan r2
      if d2.isEmpty then none
      else
        match r3 with
        | '.' :: r4 =>
          let (d3, _) := digitSpan r4
          if d3.isEmpty then none
          else some (digitsToNat d1, digitsToNat d2, digitsToNat d3)
        | _ => none
    | _ => none

/-- Leftmost match of `/(\d+)\.(\d+)\.(\d+)/` anywhere in the list. -/
def findTriple : List Char → Option (Nat × Nat × Nat)
  | [] => none
  | c :: rest =>
    match matchTripleHere (c :: rest) with
    | some t => some t
    | none => findTriple rest

/-- `parseVersion` from `checkVersionCompatibility`: first
`MAJOR.MINOR.PATCH` triple occurring in the string, if any. -/
def parseVersion (v : String) : Option (Nat × Nat × Nat) :=
  findTriple v.data

/-- `s.startsWith(c)` for a one-character prefix. -/
def startsWithChar (c : Char) : List Char → Bool
  | d :: _ => d == c
  | [] => false

/-- `s.startsWith(">=")`. -/
def startsWithGe : List Char → Bool
  | d :: e :: _ => d == '>' && e == '='
  | _ => false

/-- Core of `checkVersionCompatibility(requiredVersion, currentVersion)` on
character lists.  Mirrors the source: wildcard/empty short-circuit, parse both
operands, then dispatch on the `^` / `~` / `>=` prefix of the range. -/
def checkVC (required current : List Char) : Bool :=
  if required.isEmpty || required == ['*'] then true
  else
    match findTriple current, findTriple required with
    | some (a, b, c), some (X, Y, Z) =>
      if startsWithChar '^' required then
        if X > 0 then
          a == X && (b > Y || (b == Y && c ≥ Z))
        else if Y > 0 then
          a == X && b == Y && c ≥ Z
        else
          a == X && b == Y && c == Z
      else if startsWithChar '~' required then
        a == X && b == Y && c ≥ Z
      else if startsWithGe required then
        a > X || (a == X && b > Y) || (a == X && b == Y && c ≥ Z)
      else
        a == X && b == Y && c == Z
    | _, _ => false

/-- `ExtensionManager.checkVersionCompatibility(requiredVersion,
currentVersion)`. -/
def checkVersionCompatibility (requiredVersion currentVersion : String) : Bool :=
  checkVC requiredVersion.data currentVersion.data

/-! ## PathGuard — `ExtensionManager.validateExtractPath`

POSIX path semantics: an absolute path is a normalized list of components;
`path.resolve` is embedded as segment-wise normalization (empty and `.`
segments dropped, `..` pops) starting from the right-most absolute operand,
or from the process working directory `cwd` when none is absolute. -/

/-- Path split into raw segments. -/
def pathSegs (s : List Char) : List (List Char) :=
  splitOnChar '/' s

/-- Does the string denote an absolute POSIX path? -/
def isAbsPath (s : List Char) : Bool :=
  match s with
  | '/' :: _ => true
  | _ => false

/-- Normalization: apply raw segments to an accumulated absolute component
list; `..` at the root pops nothing, matching `path.resolve`. -/
def normSegs (acc : List (List Char)) : List (List Char) → List (List Char)
  | [] => acc
  | seg :: rest =>
    if seg.isEmpty || seg == ['.'] then normSegs acc rest
    else if seg == ['.', '.'] then normSegs acc.dropLast rest
    else normSegs (acc ++ [seg]) rest

/-- `path.resolve(p)` relative to the working directory `cwd` (itself given as
normalized absolute components). -/
def resolveOne (cwd : List (List Char)) (p : List Char) : List (List Char) :=
  if isAbsPath p then normSegs [] (pathSegs p) else normSegs cwd (pathSegs p)

/-- `path.resolve(a, b)`. -/
def resolveTwo (cwd : List (List Char)) (a b : List Char) : List (List Char) :=
  if isAbsPath b then normSegs [] (pathSegs b)
  else normSegs (resolveOne cwd a) (pathSegs b)

/-- Join components with `/` separators. -/
def joinSlash : List (List Char) → List Char
  | [] => []
  | [s] => s
  | s :: s2 :: rest => s ++ '/' :: joinSlash (s2 :: rest)

/-- Render normalized absolute components back to the path string
(`[] ↦ "/"`, `[a,b] ↦ "/a/b"`). -/
def renderAbs (comps : List (List Char)) : List Char :=
  '/' :: joinSlash comps

/-- `ExtensionManager.validateExtractPath(filePath, targetDir)`:
`path.resolve(targetDir)` and `path.resolve(targetDir, filePath)`, then
`normalizedFile.startsWith(normalizedTarget + path.sep) ||
normalizedFile === normalizedTarget`. -/
def validateExtractPath (cwd : List (List Char)) (filePath targetDir : String) : Bool :=
  let normalizedTarget := renderAbs (resolveOne cwd targetDir.data)
  let normalizedFile := renderAbs (resolveTwo cwd targetDir.data filePath.data)
  (normalizedTarget ++ ['/']).isPrefixOf normalizedFile
    || normalizedFile == normalizedTarget

/-! ## ManifestValidator — `ExtensionManager.validateManifest` -/

/-- Maximal run of characters satisfying a class, with remainder. -/
def classSpan (p : Char → Bool) (s : List Char) : List Char × List Char :=
  (s.takeWhile p, s.dropWhile p)

/-- The character class `[a-zA-Z0-9.-]` from the semver regex. -/
def semverIdentClass (c : Char) : Bool :=
  c.isAlphanum || c == '.' || c == '-'

/-- `semverRegex.test(v)` for
`/^\d+\.\d+\.\d+(-[a-zA-Z0-9.-]+)?(\+[a-zA-Z0-9.-]+)?$/`.  The character
classes of the optional groups exclude `+`, so the greedy match never needs
to backtrack across group boundaries. -/
def semverTest (s : List Char) : Bool :=
  let (d1, r1) := digitSpan s
  if d1.isEmpty then false
  else
    match r1 with
    | '.' :: r2 =>
      let (d2, r3) := digitSpan r2
      if d2.isEmpty then false
      else
        match r3 with
        | '.' :: r4 =>
          let (d3, r5) := digitSpan r4
          if d3.isEmpty then false
          else
            let afterPre :=
              match r5 with
              | '-' :: r =>
                let (p, rr) := classSpan semverIdentClass r
                if p.isEmpty then none else some rr
              | _ => some r5
            match afterPre with
            | none => false
            | some rr =>
              match rr with
              | [] => true
              | '+' :: r =>
                let (q, rrr) := classSpan semverIdentClass r
                !q.isEmpty && rrr.isEmpty
              | _ => false
        | _ => false
    | _ => false

/-- The class `[\^~>=<*]` from the version-range regex. -/
def rangePrefixClass (c : Char) : Bool :=
  c == '^' || c == '~' || c == '>' || c == '=' || c == '<' || c == '*'

/-- The class `[\d.x*-]` from the version-range regex. -/
def rangeBodyClass (c : Char) : Bool :=
  c.isDigit || c == '.' || c == 'x' || c == '*' || c == '-'

/-- One term `[\^~>=<*]?[\d.x*-]+` of the version-range regex; returns the
remainder on success.  When the optional prefix character is also a body
character (only `*`), consuming it or not leaves the same remainder, so the
deterministic strategy below is exact. -/
def rangeTerm (s : List Char) : Option (List Char) :=
  match s with
  | [] => none
  | c :: rest =>
    if rangePrefixClass c then
      let (b, r) := classSpan rangeBodyClass rest
      if b.isEmpty then
        if rangeBodyClass c then some (classSpan rangeBodyClass s).2 else none
      else some r
    else
      let (b, r) := classSpan rangeBodyClass s
      if b.isEmpty then none else some r

/-- The starred group `(\s*\|\|\s*[\^~>=<*]?[\d.x*-]+)*$`; fuel bounds the
number of groups (each consumes at least the two `|` characters). -/
def rangeOrTail : Nat → List Char → Bool
  | _, [] => true
  | 0, _ => false
  | fuel + 1, s =>
    let s1 := s.dropWhile Char.isWhitespace
    match s1 with
    | '|' :: '|' :: s2 =>
      let s3 := s2.dropWhile Char.isWhitespace
      match rangeTerm s3 with
      | some r => rangeOrTail fuel r
      | none => false
    | _ => false

/-- `rangeRegex.test(v)` for
`/^[\^~>=<*]?[\d.x*-]+(\s*\|\|\s*[\^~>=<*]?[\d.x*-]+)*$/`. -/
def rangeTest (s : List Char) : Bool :=
  match rangeTerm s with
  | some r => rangeOrTail (r.length + 1) r
  | none => false

/-- The closed set of extension types. -/
def validTypes : List String :=
  ["plugin", "skill", "command", "agent"]

/-- The five required manifest fields. -/
def requiredManifestFields : List String :=
  ["type", "name", "version", "description", "author"]

/-- `Array.prototype.includes` against a list of string literals under
JavaScript strict equality. -/
def jsIncludesStr (xs : List String) (v : JSVal) : Bool :=
  match v with
  | .vStr s => xs.contains s
  | _ => false

/-- `!manifest[field] || typeof manifest[field] !== 'string'`, negated. -/
def requiredFieldOk (m : JSVal) (f : String) : Bool :=
  match m.getField f with
  | some v => v.truthy && v.isStr
  | none => false

/-- Result shape `{ valid, errors }` of manifest validation. -/
structure ValidationResult where
  valid : Bool
  errors : List String
deriving DecidableEq, Repr

/-- The required-fields loop of `validateManifest`, in source order. -/
def requiredErrorsOf (manifest : JSVal) : List String :=
  requiredManifestFields.filterMap fun f =>
    if requiredFieldOk manifest f then none
    else some ("Required field '" ++ f ++ "' is missing or invalid")

/-- The `type` enum check of `validateManifest`. -/
def typeErrorsOf (manifest : JSVal) : List String :=
  match manifest.getField "type" with
  | some t =>
    if t.truthy then
      if jsIncludesStr validTypes t then []
      else ["Invalid type '" ++ t.display
              ++ "'. Must be one of: plugin, skill, command, agent"]
    else []
  | none => []

/-- The semver check of `validateManifest` on a truthy string `version`. -/
def versionErrorsOf (manifest : JSVal) : List String :=
  match manifest.getField "version" with
  | some (.vStr s) =>
    if s != "" && !semverTest s.data then
      ["Invalid version format '" ++ s ++ "'. Must follow semver (e.g., 1.0.0)"]
    else []
  | _ => []

/-- The optional typed fields of `validateManifest`. -/
def optionalErrorsOf (manifest : JSVal) : List String :=
  ["displayName", "icon", "repository", "entryPoint"].filterMap fun f =>
    match manifest.getField f with
    | some v =>
      if v.isStr then none
      else some ("Optional field '" ++ f ++ "' must be a string")
    | none => none

/-- The `engines` check of `validateManifest`.  A `null` value passes both
the `typeof` test (typeof null is object) and the array test, and the
subsequent property read `engines['claude-code']` throws a `TypeError`;
arrays and non-object primitives get the per-field error, and an object may
get the range-format error. -/
def enginesErrorsOf (manifest : JSVal) : Except String (List String) :=
  match manifest.getField "engines" with
  | some (.vObj fs) =>
    .ok (match (JSVal.vObj fs).getField "claude-code" with
      | some r =>
        if r.truthy then
          if rangeTest r.display.data then []
          else ["Invalid engines.claude-code version range '" ++ r.display ++ "'"]
        else []
      | none => [])
  | some .vNull =>
    .error "TypeError: Cannot read properties of null (reading 'claude-code')"
  | some _ => .ok ["Field 'engines' must be an object"]
  | none => .ok []

/-- The `permissions` array check of `validateManifest`. -/
def permissionErrorsOf (manifest : JSVal) : List String :=
  match manifest.getField "permissions" with
  | some pv =>
    if !pv.isArray then ["Field 'permissions' must be an array"]
    else
      match pv with
      | .vArr xs =>
        xs.enum.filterMap fun p =>
          if p.2.isStr then none
          else some ("Permission at index " ++ toString p.1 ++ " must be a string")
      | _ => []
  | none => []

/-- The `keywords` array check of `validateManifest`. -/
def keywordErrorsOf (manifest : JSVal) : List String :=
  match manifest.getField "keywords" with
  | some kv =>
    if !kv.isArray then ["Field 'keywords' must be an array"]
    else
      match kv with
      | .vArr xs =>
        xs.enum.filterMap fun p =>
          if p.2.isStr then none
          else some ("Keyword at index " ++ toString p.1 ++ " must be a string")
      | _ => []
  | none => []

/-- All error blocks in source order; only the engines block can throw. -/
def manifestErrorsOf (manifest : JSVal) : Except String (List String) :=
  match enginesErrorsOf manifest with
  | .error e => .error e
  | .ok enginesErrors =>
    .ok (requiredErrorsOf manifest ++ typeErrorsOf manifest
      ++ versionErrorsOf manifest ++ optionalErrorsOf manifest
      ++ enginesErrors ++ permissionErrorsOf manifest
      ++ keywordErrorsOf manifest)

/-- `ExtensionManager.validateManifest(manifest)`: collects every violation
in one pass — required fields, type enum, semver version, optional typed
fields, engines object, permissions array, keywords array — and returns
`{ valid, errors }`; a manifest with `engines: null` instead throws a
`TypeError` when `engines['claude-code']` is read (`.error`). -/
def validateManifest (manifest : JSVal) : Except String ValidationResult :=
  if !(manifest.truthy && manifest.typeofObject) then
    .ok { valid := false, errors := ["Manifest is not a valid object"] }
  else
    match manifestErrorsOf manifest with
    | .error e => .error e
    | .ok errors => .ok { valid := errors.isEmpty, errors := errors }

/-! ## The Extension model class (`models/Extension.js`)

The class constructor stores whatever JavaScript values it is given (its
fallbacks are truthiness/nullish tests, not type checks), so every attribute
is embedded as a `JSVal`. -/

/-- The 25 attributes the `Extension` constructor assigns, in source
order. -/
structure Extension where
  id : JSVal
  type : JSVal
  name : JSVal
  displayName : JSVal
  version : JSVal
  description : JSVal
  author : JSVal
  repository : JSVal
  icon : JSVal
  stars : JSVal
  downloads : JSVal
  lastUpdated : JSVal
  isOfficial : JSVal
  isFeatured : JSVal
  featuredOrder : JSVal
  isInstalled : JSVal
  installedVersion : JSVal
  hasUpdate : JSVal
  permissions : JSVal
  keywords : JSVal
  readme : JSVal
  qualityScore : JSVal
  qualityMetrics : JSVal
  checksum : JSVal
  releaseUrl : JSVal

/-- `x || d` where `x` may be `undefined` (`none`): the default is taken on
`undefined` and on every falsy value. -/
def jsOr (x : Option JSVal) (d : JSVal) : JSVal :=
  match x with
  | some v => if v.truthy then v else d
  | none => d

/-- `x ?? d`: the default is taken only on `undefined` and `null`; other
falsy values (`0`, `""`, `false`) are kept. -/
def jsNullish (x : Option JSVal) (d : JSVal) : JSVal :=
  match x with
  | some .vNull => d
  | some v => v
  | none => d

/-- `topics.includes(lit)` inside `_detectType`: array membership under
strict equality when `topics` is an array, substring containment when it is a
string (both have an `includes` method), and a `TypeError` otherwise. -/
def jsIncludesCheck (topics : JSVal) (lit : String) : Except String Bool :=
  match topics with
  | .vArr xs =>
    .ok (xs.any fun v =>
      match v with
      | .vStr s => s == lit
      | _ => false)
  | .vStr s => .ok (containsSub lit.data s.data)
  | _ => .error "TypeError: topics.includes is not a function"

/-- `Extension._formatDisplayName(repoName)` on an actual string: replace
`-` and `_` by spaces, split on spaces, capitalise each word's first
character (ASCII case mapping), join with spaces. -/
def formatDisplayName (s : String) : String :=
  let replaced := s.data.map fun c => if c == '-' || c == '_' then ' ' else c
  let words := splitOnChar ' ' replaced
  String.mk (List.intercalate [' '] (words.map fun w =>
    match w with
    | [] => []
    | c :: cs => c.toUpper :: cs))

/-- The `_formatDisplayName` call site: `repoName` is
`repoData.name || 'unknown'`; a truthy non-string reaches `.replace` and
throws a `TypeError`. -/
def formatDisplayNameJS (repoName : JSVal) : Except String JSVal :=
  match repoName with
  | .vStr s => .ok (.vStr (formatDisplayName s))
  | _ => .error "TypeError: repoName.replace is not a function"

/-- `Extension._detectType(repoData)` with `repoData` built by `fromJSON`
from the stored object `obj`: try the four topic tags on
`repoData.topics || []` (each `includes` call can throw), then fall back to
substring tests on `repoData.name.toLowerCase()` — which throws a `TypeError`
when `obj.name` is missing or not a string — and default to `plugin`. -/
def detectTypeModel (obj : JSVal) : Except String JSVal := do
  let topics := jsOr (obj.getField "keywords") (.vArr [])
  if ← jsIncludesCheck topics "claude-code-plugin" then
    return .vStr "plugin"
  if ← jsIncludesCheck topics "claude-code-skill" then
    return .vStr "skill"
  if ← jsIncludesCheck topics "claude-code-command" then
    return .vStr "command"
  if ← jsIncludesCheck topics "claude-code-agent" then
    return .vStr "agent"
  match obj.getField "name" with
  | some (.vStr s) =>
    let lower := s.data.map Char.toLower
    if containsSub "plugin".data lower then return .vStr "plugin"
    if containsSub "skill".data lower then return .vStr "skill"
    if containsSub "command".data lower then return .vStr "command"
    if containsSub "agent".data lower then return .vStr "agent"
    return .vStr "plugin"
  | _ =>
    .error "TypeError: Cannot read properties of undefined (reading toLowerCase)"

/-- `Extension.fromJSON(obj)`: rebuild the fake `repoData` from the stored
object and run the constructor.  `repoData` is a fresh object literal, so the
constructor's `!repoData` guard never fires here; `id` falls back to the
`author/name` template (stringifying the operands), `type` to `_detectType`
(which can throw), `version` to `'unknown'`; `?? `-defaulted flags keep
truthy non-boolean values, `|| null` fields null out every falsy value. -/
def extFromJSON (obj : JSVal) : Except String Extension := do
  let ownerLogin := jsOr (obj.getField "author") (.vStr "unknown")
  let repoName := jsOr (obj.getField "name") (.vStr "unknown")
  let id := jsOr (obj.getField "id")
    (.vStr (ownerLogin.display ++ "/" ++ repoName.display))
  let type ←
    match obj.getField "type" with
    | some t => if t.truthy then pure t else detectTypeModel obj
    | none => detectTypeModel obj
  let displayName ←
    match obj.getField "displayName" with
    | some d => if d.truthy then pure d else formatDisplayNameJS repoName
    | none => formatDisplayNameJS repoName
  return {
    id := id
    type := type
    name := repoName
    displayName := displayName
    version := jsOr (obj.getField "version") (.vStr "unknown")
    description := jsOr (obj.getField "description") (.vStr "")
    author := ownerLogin
    repository := jsOr (obj.getField "repository") (.vStr "")
    icon := jsOr (obj.getField "icon") .vNull
    stars := jsNullish (obj.getField "stars") (.vNum 0)
    downloads := jsNullish (obj.getField "downloads") (.vNum 0)
    lastUpdated := jsOr (obj.getField "lastUpdated") .vNull
    isOfficial := jsNullish (obj.getField "isOfficial") (.vBool false)
    isFeatured := jsNullish (obj.getField "isFeatured") (.vBool false)
    featuredOrder := jsOr (obj.getField "featuredOrder") .vNull
    isInstalled := jsNullish (obj.getField "isInstalled") (.vBool false)
    installedVersion := jsOr (obj.getField "installedVersion") .vNull
    hasUpdate := jsNullish (obj.getField "hasUpdate") (.vBool false)
    permissions := jsOr (obj.getField "permissions") (.vArr [])
    keywords := jsOr (obj.getField "keywords") (.vArr [])
    readme := jsOr (obj.getField "readme") .vNull
    qualityScore := jsOr (obj.getField "qualityScore") .vNull
    qualityMetrics := jsOr (obj.getField "qualityMetrics") .vNull
    checksum := jsOr (obj.getField "checksum") .vNull
    releaseUrl := jsOr (obj.getField "releaseUrl") .vNull }

/-- `Extension.toJSON()`: the plain object with all 25 attributes, in source
order. -/
def extToJSON (e : Extension) : JSVal :=
  .vObj [("id", e.id), ("type", e.type), ("name", e.name),
    ("displayName", e.displayName), ("version", e.version),
    ("description", e.description), ("author", e.author),
    ("repository", e.repository), ("icon", e.icon), ("stars", e.stars),
    ("downloads", e.downloads), ("lastUpdated", e.lastUpdated),
    ("isOfficial", e.isOfficial), ("isFeatured", e.isFeatured),
    ("featuredOrder", e.featuredOrder), ("isInstalled", e.isInstalled),
    ("installedVersion", e.installedVersion), ("hasUpdate", e.hasUpdate),
    ("permissions", e.permissions), ("keywords", e.keywords),
    ("readme", e.readme), ("qualityScore", e.qualityScore),
    ("qualityMetrics", e.qualityMetrics), ("checksum", e.checksum),
    ("releaseUrl", e.releaseUrl)]

/-! ## RegistryStore — in-memory map and mutating operations -/

/-- A partial field update, as passed to `updateExtension(id, updates)`:
`none` means the property is absent from the updates object.  The update
space is the record's own 25 attributes — the set that the
`{...extension}` snapshot captures and `Object.assign` restores on rollback
(a foreign key would be added by the merge and survive the rollback; no
caller in the repository passes one). -/
structure ExtUpdates where
  id : Option JSVal := none
  type : Option JSVal := none
  name : Option JSVal := none
  displayName : Option JSVal := none
  version : Option JSVal := none
  description : Option JSVal := none
  author : Option JSVal := none
  repository : Option JSVal := none
  icon : Option JSVal := none
  stars : Option JSVal := none
  downloads : Option JSVal := none
  lastUpdated : Option JSVal := none
  isOfficial : Option JSVal := none
  isFeatured : Option JSVal := none
  featuredOrder : Option JSVal := none
  isInstalled : Option JSVal := none
  installedVersion : Option JSVal := none
  hasUpdate : Option JSVal := none
  permissions : Option JSVal := none
  keywords : Option JSVal := none
  readme : Option JSVal := none
  qualityScore : Option JSVal := none
  qualityMetrics : Option JSVal := none
  checksum : Option JSVal := none
  releaseUrl : Option JSVal := none

/-- `Object.assign(extension, updates)` over the record's attributes (the
map entry's key is not touched by the merge: JavaScript `Map` keys are
separate from the stored object's `id` property). -/
def applyUpdates (e : Extension) (u : ExtUpdates) : Extension :=
  { id := u.id.getD e.id
    type := u.type.getD e.type
    name := u.name.getD e.name
    displayName := u.displayName.getD e.displayName
    version := u.version.getD e.version
    description := u.description.getD e.description
    author := u.author.getD e.author
    repository := u.repository.getD e.repository
    icon := u.icon.getD e.icon
    stars := u.stars.getD e.stars
    downloads := u.downloads.getD e.downloads
    lastUpdated := u.lastUpdated.getD e.lastUpdated
    isOfficial := u.isOfficial.getD e.isOfficial
    isFeatured := u.isFeatured.getD e.isFeatured
    featuredOrder := u.featuredOrder.getD e.featuredOrder
    isInstalled := u.isInstalled.getD e.isInstalled
    installedVersion := u.installedVersion.getD e.installedVersion
    hasUpdate := u.hasUpdate.getD e.hasUpdate
    permissions := u.permissions.getD e.permissions
    keywords := u.keywords.getD e.keywords
    readme := u.readme.getD e.readme
    qualityScore := u.qualityScore.getD e.qualityScore
    qualityMetrics := u.qualityMetrics.getD e.qualityMetrics
    checksum := u.checksum.getD e.checksum
    releaseUrl := u.releaseUrl.getD e.releaseUrl }

/-- The in-memory registry: a JavaScript `Map` keyed by `extension.id`,
embedded as an insertion-ordered association list with `jsEq`
(SameValueZero) key equality. -/
def Registry : Type :=
  List (JSVal × Extension)

/-- `Map.prototype.get`. -/
def mapGet (m : Registry) (k : JSVal) : Option Extension :=
  (List.find? (fun p => jsEq p.1 k) m).map (·.2)

/-- `Map.prototype.set`: an existing equal key keeps the stored key and
updates the value in place; a new key appends. -/
def mapSet : Registry → JSVal → Extension → Registry
  | [], k, v => [(k, v)]
  | (k', v') :: rest, k, v =>
    if jsEq k' k then (k', v) :: rest else (k', v') :: mapSet rest k v

/-- `Map.prototype.delete`. -/
def mapDelete : Registry → JSVal → Registry
  | [], _ => []
  | (k', v') :: rest, k =>
    if jsEq k' k then rest else (k', v') :: mapDelete rest k

/-- `ExtensionManager.getExtension(id)`. -/
def getExtension (m : Registry) (id : JSVal) : Option Extension :=
  mapGet m id

/-- `ExtensionManager.isInstalled(id)`: returns `ext.isInstalled` as stored
(`false` when the id is absent). -/
def isInstalledOp (m : Registry) (id : JSVal) : JSVal :=
  match mapGet m id with
  | some ext => ext.isInstalled
  | none => .vBool false

/-- `ExtensionManager.getInstalledExtensions()` (a truthiness filter). -/
def getInstalledExtensions (m : Registry) : List Extension :=
  (m.map (·.2)).filter (fun e => e.isInstalled.truthy)

/-- `e.type === 'plugin'` and friends: strict equality with a string
literal. -/
def jsStrEq (v : JSVal) (s : String) : Bool :=
  match v with
  | .vStr t => t == s
  | _ => false

/-- `ExtensionManager.getStats()`. -/
def getStats (m : Registry) : Nat × Nat × Nat × Nat × Nat × Nat :=
  let extensions := m.map (·.2)
  (extensions.length,
   (extensions.filter (fun e => e.isInstalled.truthy)).length,
   (extensions.filter (fun e => jsStrEq e.type "plugin")).length,
   (extensions.filter (fun e => jsStrEq e.type "skill")).length,
   (extensions.filter (fun e => jsStrEq e.type "command")).length,
   (extensions.filter (fun e => jsStrEq e.type "agent")).length)

/-- `ExtensionManager.addExtension(extension)`, with the outcome of the inner
`saveRegistry()` call supplied as an oracle (`.error msg` embeds a persistence
failure).  Returns the call result together with the registry map after the
call.  On failure the optimistic insert is rolled back — the previous record
is re-inserted, or the key deleted when there was none — and a wrapped error
is re-thrown. -/
def addExtension (m : Registry) (ext : Extension) (saveResult : Except String Unit) :
    Except String Unit × Registry :=
  let previous := mapGet m ext.id
  let m1 := mapSet m ext.id ext
  match saveResult with
  | .ok _ => (.ok (), m1)
  | .error msg =>
    let m2 :=
      match previous with
      | some p => mapSet m1 ext.id p
      | none => mapDelete m1 ext.id
    (.error ("Failed to save extension: " ++ msg), m2)

/-- `ExtensionManager.updateExtension(id, updates)`: `null` result when the
id is absent; otherwise merge, persist, and on persistence failure restore
the pre-merge snapshot (`Object.assign(extension, originalState)`) before
re-throwing a wrapped error. -/
def updateExtension (m : Registry) (id : JSVal) (updates : ExtUpdates)
    (saveResult : Except String Unit) :
    Except String (Option Extension) × Registry :=
  match mapGet m id with
  | none => (.ok none, m)
  | some ext =>
    let originalState := ext
    let newExt := applyUpdates ext updates
    let m1 := mapSet m id newExt
    match saveResult with
    | .ok _ => (.ok (some newExt), m1)
    | .error msg =>
      (.error ("Failed to update extension: " ++ msg), mapSet m1 id originalState)

/-- `ExtensionManager.removeExtension(id)`: delete by key, persist only when
something was deleted.  A persistence failure propagates unchanged and — in
the source — the in-memory deletion is *not* rolled back. -/
def removeExtension (m : Registry) (id : JSVal) (saveResult : Except String Unit) :
    Except String Bool × Registry :=
  let existed := (mapGet m id).isSome
  let m1 := mapDelete m id
  if existed then
    match saveResult with
    | .ok _ => (.ok true, m1)
    | .error msg => (.error msg, m1)
  else
    (.ok false, m1)

/-! ## Locking protocol — `_acquireLock` / `_releaseLock` -/

/-- What one exclusive-create attempt observes about the lock file: absent
(creation succeeds), present with a parseable `{pid, timestamp}` payload, or
present but unparseable. -/
inductive LockView : Type where
  | free : LockView
  | held (timestamp : Nat) : LockView
  | corrupt : LockView
deriving DecidableEq, Repr

/-- Outcome of `_acquireLock`; `outOfFuel` is a model artifact marking an
execution longer than the supplied fuel, never a behaviour of the source. -/
inductive AcqOutcome : Type where
  | acquired (attempt : Nat) (time : Nat) : AcqOutcome
  | timedOut : AcqOutcome
  | outOfFuel : AcqOutcome
deriving DecidableEq, Repr

/-- `this.lockAcquireTimeout` (5 seconds, in ms). -/
def lockAcquireTimeout : Nat := 5000

/-- The staleness threshold on a held lock (30 seconds, in ms). -/
def lockStaleAfter : Nat := 30000

/-- The polling sleep between attempts on a fresh lock (100 ms). -/
def lockPollSleep : Nat := 100

/-- The retry loop of `ExtensionManager._acquireLock()`.  `env i` is what the
`i`-th creation attempt observes; `startTime` is captured once; `now` is the
current clock.  A stale (strictly older than 30 s) or unparseable lock file is
deleted and the loop continues at the same instant; a fresh lock causes a
100 ms sleep; the `while` guard turns elapsed time `≥ 5000` ms into the
timeout error. -/
def acquireLoop (env : Nat → LockView) (startTime : Nat) :
    Nat → Nat → Nat → AcqOutcome
  | 0, _, _ => .outOfFuel
  | fuel + 1, i, now =>
    if now - startTime < lockAcquireTimeout then
      match env i with
      | .free => .acquired i now
      | .held ts =>
        if now - ts > lockStaleAfter then
          acquireLoop env startTime fuel (i + 1) now
        else
          acquireLoop env startTime fuel (i + 1) (now + lockPollSleep)
      | .corrupt => acquireLoop env startTime fuel (i + 1) now
    else .timedOut

/-- Result of `_releaseLock`: it never throws; a missing file (`ENOENT`) is
silently accepted, any other unlink failure is only logged. -/
inductive ReleaseOutcome : Type where
  | ok : ReleaseOutcome
deriving DecidableEq, Repr

/-- `ExtensionManager._releaseLock()`: unlink the lock file; afterwards it is
absent whether or not it existed, and no error is raised either way. -/
def releaseLock (_lockFile : Option LockView) : Option LockView × ReleaseOutcome :=
  (none, .ok)

/-! ## `loadRegistry` / `saveRegistry` against the file system -/

/-- The registry file as the loader sees it: absent (`ENOENT`), present but
not valid JSON (`JSON.parse` throws), or parsed into an object whose
`version` and `extensions` properties are inspected (`none` = absent). -/
inductive RegFileState : Type where
  | missing : RegFileState
  | unparseable : RegFileState
  | parsed (version : Option JSVal) (extensions : Option JSVal) : RegFileState

/-- The two files the registry store touches. -/
structure FsWorld where
  lockFile : Option LockView
  regFile : RegFileState

/-- `!parsed.version`, negated. -/
def versionFieldTruthy : Option JSVal → Bool
  | some v => v.truthy
  | none => false

/-- The `for (const extData of parsed.extensions)` loop, run after
`registry.clear()`: fill the map with `Extension.fromJSON` records keyed by
`extension.id`; a throwing `fromJSON` aborts the loop, leaving the partially
filled map and carrying the error. -/
def loadRecordsGo (acc : Registry) : List JSVal → Registry × Option String
  | [] => (acc, none)
  | x :: rest =>
    match extFromJSON x with
    | .ok e => loadRecordsGo (mapSet acc e.id e) rest
    | .error msg => (acc, some msg)

/-- Errors out of `loadRegistry`; `outOfFuel` is the model artifact of
`AcqOutcome.outOfFuel`. -/
inductive LoadErr : Type where
  | lockTimeout : LoadErr
  | outOfFuel : LoadErr
  | parseError : LoadErr
  | invalidFormat : LoadErr
  | recordError (msg : String) : LoadErr
deriving DecidableEq, Repr

/-- Everything observable after a `loadRegistry` call. -/
structure LoadOutcome where
  result : Except LoadErr Unit
  registry : Registry
  isLoaded : Bool
  world : FsWorld

/-- `ExtensionManager.loadRegistry()`, with the lock-acquisition outcome
passed in (`acquireLoop` computes it from an observation trace).  The whole
body — *including the `_acquireLock` call* — sits inside `try … finally
{ _releaseLock() }`, so every path except the still-running model artifact
deletes whatever lock file exists on its way out.  A missing registry file
yields an empty loaded registry; an unparseable one re-throws; a parsed one
missing a truthy `version` or an `extensions` array is a hard
`Invalid registry format` error. -/
def loadRegistry (acq : AcqOutcome) (world : FsWorld) (reg0 : Registry)
    (isLoaded0 : Bool) : LoadOutcome :=
  match acq with
  | .outOfFuel => ⟨.error .outOfFuel, reg0, isLoaded0, world⟩
  | .timedOut =>
    ⟨.error .lockTimeout, reg0, isLoaded0,
      { world with lockFile := (releaseLock world.lockFile).1 }⟩
  | .acquired _ _ =>
    let body : Except LoadErr Unit × Registry × Bool :=
      match world.regFile with
      | .missing => (.ok (), [], true)
      | .unparseable => (.error .parseError, reg0, isLoaded0)
      | .parsed version extensions =>
        match extensions with
        | some (.vArr xs) =>
          if versionFieldTruthy version then
            match loadRecordsGo [] xs with
            | (reg, none) => (.ok (), reg, true)
            | (reg, some msg) => (.error (.recordError msg), reg, isLoaded0)
          else (.error .invalidFormat, reg0, isLoaded0)
        | _ => (.error .invalidFormat, reg0, isLoaded0)
    ⟨body.1, body.2.1, body.2.2,
      { world with lockFile := (releaseLock world.lockFile).1 }⟩

/-- Errors out of a single `saveRegistry` cycle. -/
inductive SaveErr : Type where
  | lockTimeout : SaveErr
  | outOfFuel : SaveErr
  | writeFailed (msg : String) : SaveErr
deriving DecidableEq, Repr

/-- One lock/write/rename cycle of `ExtensionManager.saveRegistry()` (entered
with `isSaving` false; the same-process coalescing loop is modelled separately
as `SaveStep`).  `await this._acquireLock()` sits *before* the inner
`try … finally { _releaseLock() }`, so an acquisition timeout propagates
without touching the holder's lock file; once acquired, the temp-file write
and atomic rename replace the registry file and the `finally` releases the
lock even when the write fails. -/
def saveRegistryFS (acq : AcqOutcome) (world : FsWorld) (reg : Registry)
    (writeResult : Except String Unit) : Except SaveErr Unit × FsWorld :=
  match acq with
  | .outOfFuel => (.error .outOfFuel, world)
  | .timedOut => (.error .lockTimeout, world)
  | .acquired _ _ =>
    match writeResult with
    | .ok _ =>
      (.ok (),
        { lockFile := (releaseLock world.lockFile).1
          regFile := .parsed (some (.vStr "1.0.0"))
            (some (.vArr ((reg.map (·.2)).map extToJSON))) })
    | .error msg =>
      (.error (.writeFailed msg),
        { world with lockFile := (releaseLock world.lockFile).1 })

/-! ## Same-process save coalescing — the `isSaving` / `savePending` loop

`saveRegistry` runs on the Node event loop: the code between two `await`s is
atomic, and concurrent mutators (`addExtension` / `updateExtension` /
`removeExtension` mutate the `Map` synchronously and then call
`saveRegistry()`) interleave only at those suspension points.  The states of
the single in-flight saver between its awaits: -/

/-- Program counter of the in-flight saver.  `idle`: `isSaving === false`.
`awaitLock`: inside `_acquireLock` (the loop head already reset
`savePending`).  `writing snap`: lock held, `registryData` snapshotted from
the `Map`, temp-file write and rename in flight.  `releasing`: rename done,
`_releaseLock` in flight, the `savePending` check still to come. -/
inductive SaverPC : Type where
  | idle : SaverPC
  | awaitLock : SaverPC
  | writing (snapshot : Registry) : SaverPC
  | releasing : SaverPC

/-- Shared state of the coalescing protocol: the in-memory `Map`, the last
registry file contents written, the `savePending` flag, and the saver's
position (`isSaving` is exactly `pc ≠ idle`). -/
structure CoalesceState where
  mem : Registry
  disk : Registry
  pending : Bool
  pc : SaverPC

/-- One atomic step of the event-loop interleaving of `saveRegistry` and the
synchronous mutators. -/
inductive SaveStep : CoalesceState → CoalesceState → Prop where
  /-- A mutator changes the `Map` and calls `saveRegistry()` while a save is
  running: the call sets `savePending` and returns immediately. -/
  | mutateWhileSaving (s : CoalesceState) (m : Registry) :
      s.pc ≠ .idle →
      SaveStep s { s with mem := m, pending := true }
  /-- A mutator changes the `Map` and calls `saveRegistry()` while idle: the
  call sets `isSaving`, resets `savePending` at the loop head, and suspends in
  `_acquireLock`.  (A bare `saveRegistry()` call is the case `m = s.mem`.) -/
  | mutateWhenIdle (s : CoalesceState) (m : Registry) :
      s.pc = .idle →
      SaveStep s { mem := m, disk := s.disk, pending := false, pc := .awaitLock }
  /-- `_acquireLock` resolves; `registryData` is built synchronously from the
  current `Map` and the temp-file write starts. -/
  | acquireAndSnapshot (s : CoalesceState) :
      s.pc = .awaitLock →
      SaveStep s { s with pc := .writing s.mem }
  /-- The atomic rename lands the snapshot on disk. -/
  | renameCommit (s : CoalesceState) (snap : Registry) :
      s.pc = .writing snap →
      SaveStep s { s with disk := snap, pc := .releasing }
  /-- `_releaseLock` resolves with `savePending` set: the loop repeats the
  whole cycle, resetting the flag at the loop head. -/
  | loopAgain (s : CoalesceState) :
      s.pc = .releasing → s.pending = true →
      SaveStep s { s with pending := false, pc := .awaitLock }
  /-- `_releaseLock` resolves with `savePending` clear: the loop breaks and
  `isSaving` is cleared. -/
  | saveDone (s : CoalesceState) :
      s.pc = .releasing → s.pending = false →
      SaveStep s { s with pc := .idle }

/-- Interleaved executions. -/
def SaveReachable : CoalesceState → CoalesceState → Prop :=
  Relation.ReflTransGen SaveStep

/-! ## GitHubAPIProxy — GraphQL batch fetch and REST fallback -/

/-- The allow-list `/^[a-zA-Z0-9-._]+$/` applied to owner and repo tokens. -/
def safeNameTest (s : List Char) : Bool :=
  !s.isEmpty && s.all (fun c => c.isAlphanum || c == '-' || c == '.' || c == '_')

/-- The per-id failure condition of the validation inside
`_buildGraphQLQuery`: `[owner, repo] = id.split('/')`, then
`!owner || !repo || !safeNameRegex.test(owner) || !safeNameRegex.test(repo)`. -/
def badRepoId (id : String) : Bool :=
  match splitOnChar '/' id.data with
  | owner :: repo :: _ =>
    owner.isEmpty || repo.isEmpty || !safeNameTest owner || !safeNameTest repo
  | _ => true

/-- The loop body of `_buildGraphQLQuery` over the (already truncated) id
list: split each id on `/`, validate owner and repo, and either throw the
`Invalid repository format` error or emit the aliased sub-query data
`(index, owner, repo)` that gets interpolated into the query text. -/
def buildQueryGo : Nat → List String → Except String (List (Nat × String × String))
  | _, [] => .ok []
  | idx, id :: rest =>
    match splitOnChar '/' id.data with
    | owner :: repo :: _ =>
      if owner.isEmpty || repo.isEmpty || !safeNameTest owner || !safeNameTest repo then
        .error ("Invalid repository format: " ++ id ++ ". Must match pattern: owner/repo")
      else
        (buildQueryGo (idx + 1) rest).map ((idx, String.mk owner, String.mk repo) :: ·)
    | _ =>
      .error ("Invalid repository format: " ++ id ++ ". Must match pattern: owner/repo")

/-- `GitHubAPIProxy._buildGraphQLQuery(repoIds)`: truncate to the first 10
ids, then validate and alias each one.  (Interpolating the validated tokens
into the literal query text is elided; the validation and the error are the
modelled behaviour.) -/
def buildGraphQLQuery (repoIds : List String) :
    Except String (List (Nat × String × String)) :=
  buildQueryGo 0 (repoIds.take 10)

/-- The fields `_parseGraphQLResponse` reads from an aliased `repoN` object. -/
structure GqlRepo where
  name : String
  ownerLogin : String
  description : Option String
  stars : Nat
  updatedAt : String
  latestRelease : Option String
deriving DecidableEq, Repr

/-- The flat metadata record both fetch paths produce. -/
structure RepoMeta where
  id : String
  name : String
  author : String
  description : String
  stars : Nat
  lastUpdated : String
  latestRelease : Option String
deriving DecidableEq, Repr

/-- One entry of `_parseGraphQLResponse`. -/
def gqlToMeta (r : GqlRepo) : RepoMeta :=
  { id := r.ownerLogin ++ "/" ++ r.name
    name := r.name
    author := r.ownerLogin
    description := r.description.getD ""
    stars := r.stars
    lastUpdated := r.updatedAt
    latestRelease := r.latestRelease }

/-- `GitHubAPIProxy._parseGraphQLResponse(data, repoIds)`: for each input id
in order, look up the alias `repo<index>` and keep the present ones. -/
def parseGraphQLResponse (data : Nat → Option GqlRepo) (repoIds : List String) :
    List RepoMeta :=
  repoIds.enum.filterMap fun p => (data p.1).map gqlToMeta

/-- The fields `_batchFetchViaREST` reads from a REST repository object. -/
structure RestRepo where
  name : String
  ownerLogin : String
  description : Option String
  stars : Nat
  updatedAt : String
deriving DecidableEq, Repr

/-- One entry of the REST fallback (`latestRelease` is never populated
there). -/
def restToMeta (r : RestRepo) : RepoMeta :=
  { id := r.ownerLogin ++ "/" ++ r.name
    name := r.name
    author := r.ownerLogin
    description := r.description.getD ""
    stars := r.stars
    lastUpdated := r.updatedAt
    latestRelease := none }

/-- Observable outcome of `batchFetchExtensions`, with flags recording
whether the GraphQL call and the REST fallback were issued at all. -/
structure BatchResult where
  result : Except String (List RepoMeta)
  gqlCalled : Bool
  restCalled : Bool

/-- `GitHubAPIProxy.batchFetchExtensions(repoIds)`.  The query is built
*outside* the `try`, so a validation error propagates before any network
traffic.  The network is an oracle: `gqlOutcome` is the result of
`graphqlQuery` (`.error` = it failed for any reason), `restOutcome id` is the
per-id result of the concurrent `getRepository` fallback calls (`none` = that
id's fetch rejected and is discarded). -/
def batchFetchExtensions (repoIds : List String)
    (gqlOutcome : Except String (Nat → Option GqlRepo))
    (restOutcome : String → Option RestRepo) : BatchResult :=
  match buildGraphQLQuery repoIds with
  | .error e => { result := .error e, gqlCalled := false, restCalled := false }
  | .ok _ =>
    match gqlOutcome with
    | .ok data =>
      { result := .ok (parseGraphQLResponse data repoIds)
        gqlCalled := true, restCalled := false }
    | .error _ =>
      { result := .ok (repoIds.filterMap fun id => (restOutcome id).map restToMeta)
        gqlCalled := true, restCalled := true }

/-! ## GitHubAPIProxy — `_request` with cache, ETag and rate-limit state -/

/-- Modelled from the spec: the pluggable response-cache backend
(`CacheManager` is absent from the sources): `get(key)`, `getETag(key)` and
`set(key, value, etag)` over independent entries, embedded as an association
list keyed by the cache key.  (TTL expiry is outside the claims and elided:
the entries consulted here are within their lifetime.) -/
def CacheStore : Type :=
  List (String × JSVal × Option String)

/-- `cache.get(key)`. -/
def cacheGet (c : CacheStore) (k : String) : Option JSVal :=
  (List.find? (fun e => e.1 == k) c).map (fun e => e.2.1)

/-- `cache.getETag(key)`. -/
def cacheGetETag (c : CacheStore) (k : String) : Option String :=
  (List.find? (fun e => e.1 == k) c).bind (fun e => e.2.2)

/-- `cache.set(key, value, etag)`. -/
def cacheSet : CacheStore → String → JSVal → Option String → CacheStore
  | [], k, v, etag => [(k, v, etag)]
  | e :: rest, k, v, etag =>
    if e.1 == k then (k, v, etag) :: rest else e :: cacheSet rest k v etag

/-- `GitHubAPIProxy._getCacheKey(endpoint)`: the authentication mode is part
of the key. -/
def getCacheKey (pat : Option String) (endpoint : String) : String :=
  "github:" ++ (if pat.isSome then "auth" else "noauth") ++ ":" ++ endpoint

/-- `this.rateLimit` (times in ms since epoch). -/
structure RateLimitState where
  limit : Nat
  remaining : Nat
  reset : Nat
  resetDate : Option Nat
deriving DecidableEq, Repr

/-- The response headers `_request` reads.  `contentTypeJson` is
`contentType.includes('application/json')`; the three rate-limit headers are
`x-ratelimit-limit` / `-remaining` / `-reset` (epoch seconds). -/
structure RespHeaders where
  etag : Option String
  contentTypeJson : Bool
  rlLimit : Option Nat
  rlRemaining : Option Nat
  rlReset : Option Nat
deriving DecidableEq, Repr

/-- The network oracle: status, headers, raw body, and the outcome
`bodyParsed` of `JSON.parse(body)` (`none` = the parse throws). -/
structure HttpResponse where
  statusCode : Nat
  headers : RespHeaders
  body : String
  bodyParsed : Option JSVal

/-- `GitHubAPIProxy._updateRateLimitFromHeaders(headers)`. -/
def updateRateLimitFromHeaders (rl : RateLimitState) (h : RespHeaders) :
    RateLimitState :=
  let rl1 := match h.rlLimit with
    | some n => { rl with limit := n }
    | none => rl
  let rl2 := match h.rlRemaining with
    | some n => { rl1 with remaining := n }
    | none => rl1
  match h.rlReset with
  | some n => { rl2 with reset := n * 1000, resetDate := some (n * 1000) }
  | none => rl2

/-- The minutes figure of `_handleRateLimit`:
`Math.ceil((resetTime - Date.now()) / 60000)` with the one-hour default when
no reset date is tracked.  (A reset in the past gives a non-positive figure in
JavaScript; the `Nat` embedding reports 0 there.) -/
def handleRateLimitMinutes (rl : RateLimitState) (now : Nat) : Nat :=
  let resetTime := rl.resetDate.getD (now + 3600000)
  (resetTime - now + 59999) / 60000

/-- The errors `_request` throws. -/
inductive RequestErr : Type where
  | rateLimited (minutes limit remaining : Nat) : RequestErr
  | parseFailed (endpoint : String) : RequestErr
  | apiError (status : Nat) (message : String) : RequestErr
deriving DecidableEq, Repr

/-- `data !== null`. -/
def jsIsNull : JSVal → Bool
  | .vNull => true
  | _ => false

/-- The `if (cached) { return cached; }` guard: a cached value
short-circuits only when truthy — a cached falsy value (`0`, `""`, `false`,
`null`) fails the test and the request proceeds. -/
def truthyHit (cached : Option JSVal) : Option JSVal :=
  match cached with
  | some v => if v.truthy then some v else none
  | none => none

/-- Everything observable after a `_request` call; `networkCalled` records
whether `_makeHttpRequest` was reached. -/
structure RequestOutcome where
  result : Except RequestErr JSVal
  cache : CacheStore
  rateLimit : RateLimitState
  networkCalled : Bool

/-- `GitHubAPIProxy._request(endpoint, options)`.  In source order: cache
lookup unless `skipCache`, guarded by the truthiness test `if (cached)`; the
HTTP call (the oracle `resp`, issued with the cached ETag as
`If-None-Match`); the 304 short-circuit (same truthiness guard); rate-limit
header tracking; the 403/429 rate-limit error; defensive JSON parsing; the
`≥ 400` API error; and the write-through of a 200 JSON body with its ETag. -/
def requestModel (pat : Option String) (endpoint : String) (skipCache : Bool)
    (cache : CacheStore) (rl : RateLimitState) (now : Nat)
    (resp : HttpResponse) : RequestOutcome :=
  let cacheKey := getCacheKey pat endpoint
  let hit : Option JSVal :=
    if skipCache then none else truthyHit (cacheGet cache cacheKey)
  match hit with
  | some cached => ⟨.ok cached, cache, rl, false⟩
  | none =>
    let early : Option JSVal :=
      if resp.statusCode == 304 then truthyHit (cacheGet cache cacheKey) else none
    match early with
    | some cached => ⟨.ok cached, cache, rl, true⟩
    | none =>
      let rl1 := updateRateLimitFromHeaders rl resp.headers
      if resp.statusCode == 403 || resp.statusCode == 429 then
        ⟨.error (.rateLimited (handleRateLimitMinutes rl1 now) rl1.limit rl1.remaining),
          cache, rl1, true⟩
      else
        let dataE : Except RequestErr JSVal :=
          if resp.body != "" && resp.headers.contentTypeJson then
            match resp.bodyParsed with
            | some v => .ok v
            | none => .error (.parseFailed endpoint)
          else if resp.statusCode == 204 then .ok .vNull
          else .ok (.vStr resp.body)
        match dataE with
        | .error e => ⟨.error e, cache, rl1, true⟩
        | .ok data =>
          if resp.statusCode ≥ 400 then
            let message :=
              match data.getField "message" with
              | some mv => if mv.truthy then mv.display else "Unknown error"
              | none => "Unknown error"
            ⟨.error (.apiError resp.statusCode message), cache, rl1, true⟩
          else
            let cache1 :=
              if !skipCache && resp.statusCode == 200 && !jsIsNull data then
                cacheSet cache cacheKey data resp.headers.etag
              else cache
            ⟨.ok data, cache1, rl1, true⟩

/-- A concrete installed record, used by witnesses and counterexamples. -/
def sampleExtension : Extension :=
  { id := .vStr "author/tool", type := .vStr "plugin", name := .vStr "tool",
    displayName := .vStr "Tool", version := .vStr "1.0.0",
    description := .vStr "", author := .vStr "author",
    repository := .vStr "", icon := .vNull, stars := .vNum 0,
    downloads := .vNum 0, lastUpdated := .vNull, isOfficial := .vBool false,
    isFeatured := .vBool false, featuredOrder := .vNull,
    isInstalled := .vBool true, installedVersion := .vStr "1.0.0",
    hasUpdate := .vBool false, permissions := .vArr [], keywords := .vArr [],
    readme := .vNull, qualityScore := .vNull, qualityMetrics := .vNull,
    checksum := .vNull, releaseUrl := .vNull }

/-- A one-record registry holding `sampleExtension`. -/
def sampleRegistry : Registry :=
  [(.vStr "author/tool", sampleExtension)]

/-!
# Theorems

Helper lemmas shared by several claims come first, then one theorem per
claim (with a witness instance when the theorem carries hypotheses, and a
counterexample where the claim fails on the source).
-/

/-- The wildcard guard of `checkVC` is false for a nonempty range other than
`*`. -/
theorem wildcardGuard_false {l : List Char} (h1 : l ≠ []) (h2 : l ≠ ['*']) :
    (l.isEmpty || l == ['*']) = false := by
  cases l with
  | nil => exact absurd rfl h1
  | cons c t =>
    simp only [List.isEmpty_cons, Bool.false_or]
    exact beq_eq_false_iff_ne.mpr h2

/-- A range starting with `^` or `~` is neither empty nor the wildcard. -/
theorem startsWithChar_wildcardGuard {c : Char} {l : List Char}
    (hc : c ≠ '*') (h : startsWithChar c l = true) :
    (l.isEmpty || l == ['*']) = false := by
  cases l with
  | nil => simp [startsWithChar] at h
  | cons d t =>
    simp only [startsWithChar, beq_iff_eq] at h
    subst h
    apply wildcardGuard_false (by simp)
    intro hEq
    cases hEq
    exact hc rfl

/-- A range starting with `>=` is neither empty nor the wildcard. -/
theorem startsWithGe_wildcardGuard {l : List Char}
    (h : startsWithGe l = true) :
    (l.isEmpty || l == ['*']) = false := by
  cases l with
  | nil => simp [startsWithGe] at h
  | cons d t =>
    cases t with
    | nil => simp [startsWithGe] at h
    | cons e t2 =>
      simp only [startsWithGe, Bool.and_eq_true, beq_iff_eq] at h
      obtain ⟨hd, _⟩ := h
      subst hd
      simp

/-- A prefix character determines the failure of the other prefix tests. -/
theorem startsWithChar_ne {c c2 : Char} {l : List Char}
    (h : startsWithChar c l = true) (hne : c ≠ c2) :
    startsWithChar c2 l = false := by
  cases l with
  | nil => simp [startsWithChar] at h
  | cons d t =>
    simp only [startsWithChar, beq_iff_eq] at h ⊢
    subst h
    exact beq_eq_false_iff_ne.mpr hne

/-- A `>=` range fails both single-character prefix tests. -/
theorem startsWithGe_not_caret_tilde {l : List Char}
    (h : startsWithGe l = true) :
    startsWithChar '^' l = false ∧ startsWithChar '~' l = false := by
  cases l with
  | nil => simp [startsWithGe] at h
  | cons d t =>
    cases t with
    | nil => simp [startsWithGe] at h
    | cons e t2 =>
      simp only [startsWithGe, Bool.and_eq_true, beq_iff_eq] at h
      obtain ⟨hd, _⟩ := h
      subst hd
      constructor <;> simp [startsWithChar]

/-- An unparseable current version fails every non-wildcard range. -/
theorem checkVC_parse_none {r cur : List Char} (h1 : r ≠ []) (h2 : r ≠ ['*'])
    (hv : findTriple cur = none) : checkVC r cur = false := by
  unfold checkVC
  rw [wildcardGuard_false h1 h2, hv]
  cases findTriple r <;> simp

/-- The `^X.Y.Z` branch with `X > 0`. -/
theorem checkVC_caret_major {r cur : List Char} {X Y Z a b c : Nat}
    (h0 : startsWithChar '^' r = true)
    (hr : findTriple r = some (X, Y, Z)) (hv : findTriple cur = some (a, b, c))
    (hX : 0 < X) :
    (checkVC r cur = true ↔ (a = X ∧ (Y < b ∨ (b = Y ∧ Z ≤ c)))) := by
  unfold checkVC
  rw [startsWithChar_wildcardGuard (by decide) h0, hv, hr, h0]
  simp [hX, and_assoc]

/-- The `^0.Y.Z` branch with `Y > 0`. -/
theorem checkVC_caret_minor {r cur : List Char} {Y Z a b c : Nat}
    (h0 : startsWithChar '^' r = true)
    (hr : findTriple r = some (0, Y, Z)) (hv : findTriple cur = some (a, b, c))
    (hY : 0 < Y) :
    (checkVC r cur = true ↔ (a = 0 ∧ b = Y ∧ Z ≤ c)) := by
  unfold checkVC
  rw [startsWithChar_wildcardGuard (by decide) h0, hv, hr, h0]
  simp [hY, and_assoc]

/-- The `^0.0.Z` branch: exact match only. -/
theorem checkVC_caret_exact {r cur : List Char} {Z a b c : Nat}
    (h0 : startsWithChar '^' r = true)
    (hr : findTriple r = some (0, 0, Z)) (hv : findTriple cur = some (a, b, c)) :
    (checkVC r cur = true ↔ (a = 0 ∧ b = 0 ∧ c = Z)) := by
  unfold checkVC
  rw [startsWithChar_wildcardGuard (by decide) h0, hv, hr, h0]
  simp [and_assoc]

/-- The `~X.Y.Z` branch. -/
theorem checkVC_tilde {r cur : List Char} {X Y Z a b c : Nat}
    (h0 : startsWithChar '~' r = true)
    (hr : findTriple r = some (X, Y, Z)) (hv : findTriple cur = some (a, b, c)) :
    (checkVC r cur = true ↔ (a = X ∧ b = Y ∧ Z ≤ c)) := by
  unfold checkVC
  rw [startsWithChar_wildcardGuard (by decide) h0, hv, hr,
    startsWithChar_ne h0 (by decide), h0]
  simp [and_assoc]

/-- The `>=X.Y.Z` branch. -/
theorem checkVC_ge {r cur : List Char} {X Y Z a b c : Nat}
    (h0 : startsWithGe r = true)
    (hr : findTriple r = some (X, Y, Z)) (hv : findTriple cur = some (a, b, c)) :
    (checkVC r cur = true ↔
      (X < a ∨ (a = X ∧ Y < b) ∨ (a = X ∧ b = Y ∧ Z ≤ c))) := by
  obtain ⟨hc, ht⟩ := startsWithGe_not_caret_tilde h0
  unfold checkVC
  rw [startsWithGe_wildcardGuard h0, hv, hr, hc, ht, h0]
  simp [and_assoc, or_assoc]

/-- The bare `X.Y.Z` branch: exact match only. -/
theorem checkVC_bare {r cur : List Char} {X Y Z a b c : Nat}
    (h1 : r ≠ []) (h2 : r ≠ ['*'])
    (hc : startsWithChar '^' r = false) (ht : startsWithChar '~' r = false)
    (hg : startsWithGe r = false)
    (hr : findTriple r = some (X, Y, Z)) (hv : findTriple cur = some (a, b, c)) :
    (checkVC r cur = true ↔ (a = X ∧ b = Y ∧ c = Z)) := by
  unfold checkVC
  rw [wildcardGuard_false h1 h2, hv, hr, hc, ht, hg]
  simp [and_assoc]

/-- C9: `checkVersionCompatibility(range, version)`: a `*` or empty range
accepts every version; a version with no `MAJOR.MINOR.PATCH` triple is
incompatible with every non-wildcard range; `^X.Y.Z` with `X>0` accepts
exactly major `X` with `(minor, patch)` lexicographically `≥ (Y, Z)`;
`^0.Y.Z` with `Y>0` accepts exactly major `0`, minor `Y`, patch `≥ Z`;
`^0.0.Z` accepts only the exact triple; `~X.Y.Z` accepts exactly the same
major and minor with patch `≥ Z`; `>=X.Y.Z` accepts exactly triples
numerically `≥ (X, Y, Z)`; a bare range accepts only the exact triple. -/
theorem claim_C9_checkVersionCompatibility :
    (∀ v : String, checkVersionCompatibility "*" v = true
        ∧ checkVersionCompatibility "" v = true)
    ∧ (∀ r v : String, r.data ≠ [] → r.data ≠ ['*'] → parseVersion v = none →
        checkVersionCompatibility r v = false)
    ∧ (∀ (r v : String) (X Y Z a b c : Nat),
        startsWithChar '^' r.data = true → parseVersion r = some (X, Y, Z) →
        0 < X → parseVersion v = some (a, b, c) →
        (checkVersionCompatibility r v = true
          ↔ (a = X ∧ (Y < b ∨ (b = Y ∧ Z ≤ c)))))
    ∧ (∀ (r v : String) (Y Z a b c : Nat),
        startsWithChar '^' r.data = true → parseVersion r = some (0, Y, Z) →
        0 < Y → parseVersion v = some (a, b, c) →
        (checkVersionCompatibility r v = true ↔ (a = 0 ∧ b = Y ∧ Z ≤ c)))
    ∧ (∀ (r v : String) (Z a b c : Nat),
        startsWithChar '^' r.data = true → parseVersion r = some (0, 0, Z) →
        parseVersion v = some (a, b, c) →
        (checkVersionCompatibility r v = true ↔ (a = 0 ∧ b = 0 ∧ c = Z)))
    ∧ (∀ (r v : String) (X Y Z a b c : Nat),
        startsWithChar '~' r.data = true → parseVersion r = some (X, Y, Z) →
        parseVersion v = some (a, b, c) →
        (checkVersionCompatibility r v = true ↔ (a = X ∧ b = Y ∧ Z ≤ c)))
    ∧ (∀ (r v : String) (X Y Z a b c : Nat),
        startsWithGe r.data = true → parseVersion r = some (X, Y, Z) →
        parseVersion v = some (a, b, c) →
        (checkVersionCompatibility r v = true
          ↔ (X < a ∨ (a = X ∧ Y < b) ∨ (a = X ∧ b = Y ∧ Z ≤ c))))
    ∧ (∀ (r v : String) (X Y Z a b c : Nat),
        r.data ≠ [] → r.data ≠ ['*'] →
        startsWithChar '^' r.data = false → startsWithChar '~' r.data = false →
        startsWithGe r.data = false →
        parseVersion r = some (X, Y, Z) → parseVersion v = some (a, b, c) →
        (checkVersionCompatibility r v = true ↔ (a = X ∧ b = Y ∧ c = Z))) := by
  refine ⟨fun v => ⟨rfl, rfl⟩, ?_, ?_, ?_, ?_, ?_, ?_, ?_⟩
  · exact fun r v h1 h2 hv => checkVC_parse_none h1 h2 hv
  · exact fun r v X Y Z a b c h0 hr hX hv => checkVC_caret_major h0 hr hv hX
  · exact fun r v Y Z a b c h0 hr hY hv => checkVC_caret_minor h0 hr hv hY
  · exact fun r v Z a b c h0 hr hv => checkVC_caret_exact h0 hr hv
  · exact fun r v X Y Z a b c h0 hr hv => checkVC_tilde h0 hr hv
  · exact fun r v X Y Z a b c h0 hr hv => checkVC_ge h0 hr hv
  · exact fun r v X Y Z a b c h1 h2 hc ht hg hr hv =>
      checkVC_bare h1 h2 hc ht hg hr hv

/-- C9 witness: the caret clause at `^1.0.0` against `1.2.5`, the tilde
clause at `~1.2.0` against `1.3.0`, and the wildcard clause. -/
theorem claim_C9_checkVersionCompatibility_witness :
    checkVersionCompatibility "^1.0.0" "1.2.5" = true
      ∧ checkVersionCompatibility "~1.2.0" "1.3.0" = false
      ∧ checkVersionCompatibility "*" "not-a-version" = true := by
  refine ⟨?_, ?_, (claim_C9_checkVersionCompatibility.1 "not-a-version").1⟩
  · exact (claim_C9_checkVersionCompatibility.2.2.1 "^1.0.0" "1.2.5" 1 0 0 1 2 5
      (by decide) (by decide) (by decide) (by decide)).mpr
      ⟨rfl, Or.inl (by decide)⟩
  · have h := (claim_C9_checkVersionCompatibility.2.2.2.2.2.1 "~1.2.0" "1.3.0"
      1 2 0 1 3 0 (by decide) (by decide) (by decide))
    rcases hb : checkVersionCompatibility "~1.2.0" "1.3.0" with _ | _
    · rfl
    · exact absurd ((h.mp hb).2.1) (by decide)

/-- Joining splits over an append once both sides are nonempty. -/
theorem joinSlash_append : ∀ (base rest : List (List Char)), base ≠ [] → rest ≠ [] →
    joinSlash (base ++ rest) = joinSlash base ++ '/' :: joinSlash rest
  | [], _, hb, _ => absurd rfl hb
  | [_], [], _, hr => absurd rfl hr
  | [b], r :: rs, _, _ => by simp [joinSlash]
  | b :: b2 :: bs, rest, _, hr => by
    have ih := joinSlash_append (b2 :: bs) rest (by simp) hr
    simp only [List.cons_append, joinSlash, List.append_eq] at ih ⊢
    rw [ih]
    simp [List.append_assoc]

/-- The rendered target plus a separator is a prefix of the rendering of any
proper extension of the target components. -/
theorem renderAbs_extend_isPrefixOf {base rest : List (List Char)} (hb : base ≠ [])
    (hr : rest ≠ []) :
    (renderAbs base ++ ['/']).isPrefixOf (renderAbs (base ++ rest)) = true := by
  rw [List.isPrefixOf_iff_prefix]
  simp only [renderAbs, joinSlash_append base rest hb hr, List.cons_append]
  refine ⟨joinSlash rest, ?_⟩
  simp

/-- Normalization acts as plain append on segments that are neither empty nor
`.` nor `..`. -/
theorem normSegs_no_special : ∀ (segs base : List (List Char)),
    (∀ s ∈ segs, s ≠ [] ∧ s ≠ ['.'] ∧ s ≠ ['.', '.']) →
    normSegs base segs = base ++ segs
  | [], base, _ => by simp [normSegs]
  | s :: rest, base, h => by
    obtain ⟨h1, h2, h3⟩ := h s (by simp)
    have ih := normSegs_no_special rest (base ++ [s])
      (fun x hx => h x (by simp [hx]))
    have hA : (s.isEmpty || s == ['.']) = false := by
      cases s with
      | nil => exact absurd rfl h1
      | cons c cs =>
        simp only [List.isEmpty_cons, Bool.false_or]
        exact beq_eq_false_iff_ne.mpr h2
    have hB : (s == ['.', '.']) = false := beq_eq_false_iff_ne.mpr h3
    simp only [normSegs, hA, hB]
    rw [ih]
    simp

/-- A relative entry whose segments are all ordinary lands strictly inside
any target that does not resolve to the filesystem root. -/
theorem validateExtractPath_rel_safe {cwd : List (List Char)} {f t : String}
    (hb : resolveOne cwd t.data ≠ [])
    (habs : isAbsPath f.data = false)
    (hne : pathSegs f.data ≠ [])
    (hs : ∀ s ∈ pathSegs f.data, s ≠ [] ∧ s ≠ ['.'] ∧ s ≠ ['.', '.']) :
    validateExtractPath cwd f t = true := by
  unfold validateExtractPath resolveTwo
  rw [habs]
  simp only [Bool.false_eq_true, if_false]
  rw [normSegs_no_special _ _ hs]
  simp [renderAbs_extend_isPrefixOf hb hne]

/-- C6 counterexample: the claim quantifies the rejections over *every*
target directory, but against the target `/etc` the entry `../etc/passwd`
resolves to `/etc/passwd`, which passes the descendant check; and against the
root target `/` even the plain relative `README.md` is rejected, because the
code compares against `"/" + path.sep`, i.e. `//`. -/
theorem claim_C6_counterexample :
    validateExtractPath [] "../etc/passwd" "/etc" = true
      ∧ validateExtractPath [] "README.md" "/" = false := by
  exact ⟨by decide, by decide⟩

/-- C6 (amended): `validateExtractPath(filePath, targetDir)` returns true iff
the path resolved from `targetDir` and `filePath` equals the resolved
`targetDir` or begins with it followed by a path separator; the entries
`../etc/passwd`, `../../root/.ssh/id_rsa` and `/etc/passwd` are rejected
against targets the resolved entry does not land inside (e.g.
`/home/user/extensions`) — though not against every target — and plain
relative entries such as `plugin/index.js`, `subfolder/file.txt` and
`README.md` are accepted against every target that does not resolve to the
filesystem root. -/
theorem claim_C6_validateExtractPath :
    (∀ (cwd : List (List Char)) (f t : String),
      validateExtractPath cwd f t = true
        ↔ ((renderAbs (resolveOne cwd t.data) ++ ['/'])
              <+: renderAbs (resolveTwo cwd t.data f.data)
            ∨ renderAbs (resolveTwo cwd t.data f.data)
              = renderAbs (resolveOne cwd t.data)))
    ∧ (validateExtractPath [] "../etc/passwd" "/home/user/extensions" = false
        ∧ validateExtractPath [] "../../root/.ssh/id_rsa" "/home/user/extensions" = false
        ∧ validateExtractPath [] "/etc/passwd" "/home/user/extensions" = false)
    ∧ (∀ (cwd : List (List Char)) (t : String), resolveOne cwd t.data ≠ [] →
        validateExtractPath cwd "plugin/index.js" t = true
          ∧ validateExtractPath cwd "subfolder/file.txt" t = true
          ∧ validateExtractPath cwd "README.md" t = true) := by
  refine ⟨?_, ⟨by decide, by decide, by decide⟩, ?_⟩
  · intro cwd f t
    unfold validateExtractPath
    simp [List.isPrefixOf_iff_prefix]
  · intro cwd t hb
    refine ⟨?_, ?_, ?_⟩ <;>
      exact validateExtractPath_rel_safe hb (by decide) (by decide) (by decide)

/-- C6 witness: the amended acceptance clause applied at the target
`/home/user/extensions` (which resolves away from the root), plus the
characterization at a concrete traversal entry. -/
theorem claim_C6_validateExtractPath_witness :
    validateExtractPath [] "plugin/index.js" "/home/user/extensions" = true
      ∧ validateExtractPath [] "README.md" "/home/user/extensions" = true := by
  have h := claim_C6_validateExtractPath.2.2 [] "/home/user/extensions" (by decide)
  exact ⟨h.1, h.2.2⟩

mutual

/-- `jsEq` is reflexive (SameValueZero holds between a value and itself). -/
theorem jsEq_refl : (v : JSVal) → jsEq v v = true
  | .vNull => rfl
  | .vBool b => by simp [jsEq]
  | .vNum n => by simp [jsEq]
  | .vStr s => by simp [jsEq]
  | .vArr xs => by simp [jsEq, jsEqList_refl xs]
  | .vObj fs => by simp [jsEq, jsEqFields_refl fs]

/-- Reflexivity of the element-wise array comparison. -/
theorem jsEqList_refl : (xs : List JSVal) → jsEqList xs xs = true
  | [] => rfl
  | x :: xs => by simp [jsEqList, jsEq_refl x, jsEqList_refl xs]

/-- Reflexivity of the field-wise object comparison. -/
theorem jsEqFields_refl : (fs : List (String × JSVal)) → jsEqFields fs fs = true
  | [] => rfl
  | (k, v) :: fs => by simp [jsEqFields, jsEq_refl v, jsEqFields_refl fs]

end

/-- Re-inserting the looked-up record over an overwrite restores the map. -/
theorem mapSet_mapSet_cancel : ∀ {m : Registry} {k : JSVal} {v p : Extension},
    mapGet m k = some p → mapSet (mapSet m k v) k p = m
  | [], k, v, p, h => by simp [mapGet] at h
  | (k', v') :: rest, k, v, p, h => by
    cases hk : jsEq k' k with
    | true =>
      have hv : v' = p := by simpa [mapGet, List.find?_cons, hk] using h
      subst hv
      simp [mapSet, hk]
    | false =>
      have hrest : mapGet rest k = some p := by
        simpa [mapGet, List.find?_cons, hk] using h
      simp [mapSet, hk, mapSet_mapSet_cancel hrest]

/-- Deleting a freshly appended key restores the map. -/
theorem mapDelete_mapSet_cancel : ∀ {m : Registry} {k : JSVal} {v : Extension},
    mapGet m k = none → mapDelete (mapSet m k v) k = m
  | [], k, v, _ => by simp [mapSet, mapDelete, jsEq_refl]
  | (k', v') :: rest, k, v, h => by
    cases hk : jsEq k' k with
    | true => simp [mapGet, List.find?_cons, hk] at h
    | false =>
      have hrest : mapGet rest k = none := by
        simpa [mapGet, List.find?_cons, hk] using h
      simp [mapSet, mapDelete, hk, mapDelete_mapSet_cancel hrest]

/-- C1 counterexample: `removeExtension` performs no rollback — with one
installed record and a failing save, the record is gone from the in-memory
map after the call (`getExtension` sees `none`), contradicting the claimed
restoration for `remove(id)`. -/
theorem claim_C1_counterexample :
    (removeExtension sampleRegistry (.vStr "author/tool")
        (Except.error "disk full")).2
      ≠ sampleRegistry
    ∧ getExtension (removeExtension sampleRegistry (.vStr "author/tool")
        (Except.error "disk full")).2 (.vStr "author/tool") = none := by
  constructor
  · intro h
    have h2 : ([] : Registry) = sampleRegistry := h
    exact List.noConfusion h2
  · rfl

/-- C1 (amended): when persisting fails, `add(record)` and
`update(id, fields)` restore the in-memory registry map to exactly its
pre-call state and re-raise a wrapped error, so the observable registry is
unchanged for them; `remove(id)` re-raises the error but leaves the key
deleted in memory. -/
theorem claim_C1_rollback :
    (∀ (m : Registry) (ext : Extension) (msg : String),
      addExtension m ext (.error msg)
        = (.error ("Failed to save extension: " ++ msg), m))
    ∧ (∀ (m : Registry) (id : JSVal) (u : ExtUpdates) (ext : Extension)
        (msg : String), mapGet m id = some ext →
        updateExtension m id u (.error msg)
          = (.error ("Failed to update extension: " ++ msg), m))
    ∧ (∀ (m : Registry) (id : JSVal) (ext : Extension) (msg : String),
        mapGet m id = some ext →
        removeExtension m id (.error msg) = (.error msg, mapDelete m id)) := by
  refine ⟨?_, ?_, ?_⟩
  · intro m ext msg
    unfold addExtension
    cases h : mapGet m ext.id with
    | some p => simp [mapSet_mapSet_cancel h]
    | none => simp [mapDelete_mapSet_cancel h]
  · intro m id u ext msg h
    unfold updateExtension
    rw [h]
    simp [mapSet_mapSet_cancel h]
  · intro m id ext msg h
    unfold removeExtension
    rw [h]
    simp

/-- C1 witness: the rollback clauses at a concrete one-record registry and a
concrete failing save. -/
theorem claim_C1_rollback_witness :
    addExtension [] sampleExtension (Except.error "disk full")
      = (.error "Failed to save extension: disk full", [])
    ∧ updateExtension sampleRegistry (.vStr "author/tool")
        { isInstalled := some (.vBool false) } (Except.error "disk full")
      = (.error "Failed to update extension: disk full", sampleRegistry) := by
  constructor
  · exact claim_C1_rollback.1 [] sampleExtension "disk full"
  · exact claim_C1_rollback.2.1 sampleRegistry (.vStr "author/tool")
      { isInstalled := some (.vBool false) } sampleExtension "disk full" rfl

/-- The save-coalescing invariant is preserved by every step: when the saver
is idle the disk matches memory; when it is past the snapshot with no pending
request, the snapshot (resp. the disk, after the rename) matches memory. -/
theorem saveStep_preserves {b c : CoalesceState} (hstep : SaveStep b c)
    (_h1 : b.pc = .idle → b.disk = b.mem)
    (h2 : b.pc = .releasing → b.pending = false → b.disk = b.mem)
    (h3 : ∀ snap, b.pc = .writing snap → b.pending = false → snap = b.mem) :
    (c.pc = .idle → c.disk = c.mem)
      ∧ (c.pc = .releasing → c.pending = false → c.disk = c.mem)
      ∧ (∀ snap, c.pc = .writing snap → c.pending = false → snap = c.mem) := by
  cases hstep with
  | mutateWhileSaving m hpc =>
    exact ⟨fun h => absurd h hpc, fun _ hp => Bool.noConfusion hp,
      fun snap _ hp => Bool.noConfusion hp⟩
  | mutateWhenIdle m hpc =>
    exact ⟨fun h => SaverPC.noConfusion h, fun h => SaverPC.noConfusion h,
      fun snap h => SaverPC.noConfusion h⟩
  | acquireAndSnapshot hpc =>
    refine ⟨fun h => SaverPC.noConfusion h, fun h => SaverPC.noConfusion h, ?_⟩
    intro snap hw _
    injection hw with h'
    exact h'.symm
  | renameCommit snap0 hpc =>
    refine ⟨fun h => SaverPC.noConfusion h, ?_, fun snap h _ => SaverPC.noConfusion h⟩
    intro _ hp
    exact h3 snap0 hpc hp
  | loopAgain hpc hp =>
    exact ⟨fun h => SaverPC.noConfusion h, fun h => SaverPC.noConfusion h,
      fun snap h _ => SaverPC.noConfusion h⟩
  | saveDone hpc hp =>
    exact ⟨fun _ => h2 hpc hp, fun h => SaverPC.noConfusion h,
      fun snap h _ => SaverPC.noConfusion h⟩

/-- The coalescing invariant holds in every reachable state. -/
theorem saveReachable_inv {s0 s : CoalesceState} (hreach : SaveReachable s0 s)
    (h1 : s0.pc = .idle → s0.disk = s0.mem)
    (h2 : s0.pc = .releasing → s0.pending = false → s0.disk = s0.mem)
    (h3 : ∀ snap, s0.pc = .writing snap → s0.pending = false → snap = s0.mem) :
    (s.pc = .idle → s.disk = s.mem)
      ∧ (s.pc = .releasing → s.pending = false → s.disk = s.mem)
      ∧ (∀ snap, s.pc = .writing snap → s.pending = false → snap = s.mem) := by
  induction hreach with
  | refl => exact ⟨h1, h2, h3⟩
  | tail hr step ih => exact saveStep_preserves step ih.1 ih.2.1 ih.2.2

/-- C2: a `saveRegistry()` call during a running save sets the pending flag
and returns at once (`mutateWhileSaving`); the running save repeats the whole
lock/write/rename cycle whenever the flag is set at its release point
(`loopAgain`); and consequently, in every interleaving that starts loaded
(disk = memory, saver idle) and has settled (saver idle again), the last
completed write equals the final in-memory state — no mutation's effect is
missing from the registry file. -/
theorem claim_C2_saveCoalescing :
    (∀ (s : CoalesceState) (m : Registry), s.pc ≠ .idle →
      SaveStep s { s with mem := m, pending := true })
    ∧ (∀ s : CoalesceState, s.pc = .releasing → s.pending = true →
      SaveStep s { s with pending := false, pc := .awaitLock })
    ∧ (∀ s0 s : CoalesceState, s0.pc = .idle → s0.disk = s0.mem →
      SaveReachable s0 s → s.pc = .idle → s.disk = s.mem) := by
  refine ⟨fun s m h => SaveStep.mutateWhileSaving s m h,
    fun s h hp => SaveStep.loopAgain s h hp, ?_⟩
  intro s0 s hpc0 hdm hreach hpc
  have inv := saveReachable_inv hreach (fun _ => hdm)
    (fun hrel => absurd (hpc0.symm.trans hrel) (by simp))
    (fun snap hw => absurd (hpc0.symm.trans hw) (by simp))
  exact inv.1 hpc

/-- C2 witness: a concrete interleaving — a mutation lands while a save is
writing, the flag forces a second cycle, and the settled state has the
mutation on disk. -/
theorem claim_C2_saveCoalescing_witness :
    SaveReachable ⟨[], [], false, .idle⟩
        ⟨sampleRegistry,
          sampleRegistry, false, .idle⟩
      ∧ (sampleRegistry : Registry)
        = sampleRegistry := by
  have step1 : SaveStep ⟨[], [], false, SaverPC.idle⟩
      ⟨[], [], false, SaverPC.awaitLock⟩ :=
    SaveStep.mutateWhenIdle _ ([]) rfl
  have step2 : SaveStep ⟨[], [], false, SaverPC.awaitLock⟩
      ⟨[], [], false, SaverPC.writing []⟩ :=
    SaveStep.acquireAndSnapshot _ rfl
  have step3 : SaveStep ⟨[], [], false, SaverPC.writing []⟩
      ⟨sampleRegistry, [], true,
        SaverPC.writing []⟩ :=
    SaveStep.mutateWhileSaving _ _ (by simp)
  have step4 : SaveStep
      ⟨sampleRegistry, [], true,
        SaverPC.writing []⟩
      ⟨sampleRegistry, [], true,
        SaverPC.releasing⟩ :=
    SaveStep.renameCommit _ ([]) rfl
  have step5 : SaveStep
      ⟨sampleRegistry, [], true,
        SaverPC.releasing⟩
      ⟨sampleRegistry, [], false,
        SaverPC.awaitLock⟩ :=
    SaveStep.loopAgain _ rfl rfl
  have step6 : SaveStep
      ⟨sampleRegistry, [], false,
        SaverPC.awaitLock⟩
      ⟨sampleRegistry, [], false,
        SaverPC.writing sampleRegistry⟩ :=
    SaveStep.acquireAndSnapshot _ rfl
  have step7 : SaveStep
      ⟨sampleRegistry, [], false,
        SaverPC.writing sampleRegistry⟩
      ⟨sampleRegistry,
        sampleRegistry, false,
        SaverPC.releasing⟩ :=
    SaveStep.renameCommit _ _ rfl
  have step8 : SaveStep
      ⟨sampleRegistry,
        sampleRegistry, false,
        SaverPC.releasing⟩
      ⟨sampleRegistry,
        sampleRegistry, false,
        SaverPC.idle⟩ :=
    SaveStep.saveDone _ rfl rfl
  refine ⟨?_, ?_⟩
  · exact Relation.ReflTransGen.head step1 (Relation.ReflTransGen.head step2
      (Relation.ReflTransGen.head step3 (Relation.ReflTransGen.head step4
      (Relation.ReflTransGen.head step5 (Relation.ReflTransGen.head step6
      (Relation.ReflTransGen.head step7 (Relation.ReflTransGen.head step8
        Relation.ReflTransGen.refl)))))))
  · exact claim_C2_saveCoalescing.2.2 ⟨[], [], false, .idle⟩
      ⟨sampleRegistry,
        sampleRegistry, false, .idle⟩
      rfl rfl
      (Relation.ReflTransGen.head step1 (Relation.ReflTransGen.head step2
        (Relation.ReflTransGen.head step3 (Relation.ReflTransGen.head step4
        (Relation.ReflTransGen.head step5 (Relation.ReflTransGen.head step6
        (Relation.ReflTransGen.head step7 (Relation.ReflTransGen.head step8
          Relation.ReflTransGen.refl))))))))
      rfl

/-- C3: during lock acquisition, an existing lock strictly older than 30 s,
or one whose content fails to parse, is deleted and the attempt repeats at
the same instant; a fresh parseable lock causes a 100 ms sleep before the
retry; reaching the loop guard with 5 s elapsed yields the explicit timeout
error instead of hanging (in particular a permanently fresh foreign lock
times out); and releasing an already-missing lock file is not an error. -/
theorem claim_C3_lockProtocol :
    (∀ (env : Nat → LockView) (st fuel i now ts : Nat),
      now - st < lockAcquireTimeout → env i = .held ts →
      now - ts > lockStaleAfter →
      acquireLoop env st (fuel + 1) i now = acquireLoop env st fuel (i + 1) now)
    ∧ (∀ (env : Nat → LockView) (st fuel i now : Nat),
      now - st < lockAcquireTimeout → env i = .corrupt →
      acquireLoop env st (fuel + 1) i now = acquireLoop env st fuel (i + 1) now)
    ∧ (∀ (env : Nat → LockView) (st fuel i now ts : Nat),
      now - st < lockAcquireTimeout → env i = .held ts →
      ¬(now - ts > lockStaleAfter) →
      acquireLoop env st (fuel + 1) i now
        = acquireLoop env st fuel (i + 1) (now + lockPollSleep))
    ∧ (∀ (env : Nat → LockView) (st fuel i now : Nat),
      lockAcquireTimeout ≤ now - st →
      acquireLoop env st (fuel + 1) i now = .timedOut)
    ∧ acquireLoop (fun _ => .held 0) 0 60 0 0 = .timedOut
    ∧ (∀ f : Option LockView, releaseLock f = (none, .ok)) := by
  refine ⟨?_, ?_, ?_, ?_, by decide, fun f => rfl⟩
  · intro env st fuel i now ts hg he hs
    simp [acquireLoop, hg, he, hs]
  · intro env st fuel i now hg he
    simp [acquireLoop, hg, he]
  · intro env st fuel i now ts hg he hs
    simp [acquireLoop, hg, he, hs]
  · intro env st fuel i now hg
    simp [acquireLoop, Nat.not_lt.mpr hg]

/-- C3 witness: the stale-reclaim clause at a 40 s old lock, the timeout
clause at the 5 s boundary, and release of a missing file. -/
theorem claim_C3_lockProtocol_witness :
    acquireLoop (fun _ => .held 0) 40000 3 0 40000
        = acquireLoop (fun _ => .held 0) 40000 2 1 40000
      ∧ acquireLoop (fun _ => .free) 0 7 2 5000 = .timedOut
      ∧ releaseLock none = (none, .ok) := by
  refine ⟨?_, ?_, claim_C3_lockProtocol.2.2.2.2.2 none⟩
  · exact claim_C3_lockProtocol.1 (fun _ => .held 0) 40000 2 0 40000 0
      (by decide) rfl (by decide)
  · exact claim_C3_lockProtocol.2.2.2.1 (fun _ => .free) 0 6 2 5000 (by decide)

/-- C4: `loadRegistry()` on a missing registry file succeeds with an empty,
loaded registry; a file that parses but lacks an `extensions` array, or a
truthy `version`, is a hard `Invalid registry format` error; and on every
outcome of the call (success, missing file, parse error, shape error, lock
timeout) the lock file is gone when the call returns. -/
theorem claim_C4_loadRegistry :
    (∀ (lock : Option LockView) (reg0 : Registry) (l0 : Bool),
      loadRegistry (.acquired 0 0) ⟨lock, .missing⟩ reg0 l0
        = ⟨.ok (), [], true, ⟨none, .missing⟩⟩)
    ∧ (∀ (lock : Option LockView) (reg0 : Registry) (l0 : Bool)
        (version extField : Option JSVal),
      (∀ xs, extField ≠ some (JSVal.vArr xs)) →
      loadRegistry (.acquired 0 0) ⟨lock, .parsed version extField⟩ reg0 l0
        = ⟨.error .invalidFormat, reg0, l0, ⟨none, .parsed version extField⟩⟩)
    ∧ (∀ (lock : Option LockView) (reg0 : Registry) (l0 : Bool)
        (version : Option JSVal) (xs : List JSVal),
      versionFieldTruthy version = false →
      loadRegistry (.acquired 0 0) ⟨lock, .parsed version (some (.vArr xs))⟩ reg0 l0
        = ⟨.error .invalidFormat, reg0, l0,
            ⟨none, .parsed version (some (.vArr xs))⟩⟩)
    ∧ (∀ (acq : AcqOutcome) (world : FsWorld) (reg0 : Registry) (l0 : Bool),
      acq ≠ .outOfFuel →
      (loadRegistry acq world reg0 l0).world.lockFile = none) := by
  refine ⟨fun lock reg0 l0 => rfl, ?_, ?_, ?_⟩
  · intro lock reg0 l0 version extField h
    cases extField with
    | none => rfl
    | some v =>
      cases v with
      | vArr xs => exact absurd rfl (h xs)
      | vNull => rfl
      | vBool b => rfl
      | vNum n => rfl
      | vStr s => rfl
      | vObj fs => rfl
  · intro lock reg0 l0 version xs h
    simp [loadRegistry, releaseLock, h]
  · intro acq world reg0 l0 h
    cases acq with
    | outOfFuel => exact absurd rfl h
    | timedOut => rfl
    | acquired a t => rfl

/-- C4 witness: the missing-file clause and the shape-error clause at
concrete worlds. -/
theorem claim_C4_loadRegistry_witness :
    loadRegistry (.acquired 0 0) ⟨none, .missing⟩ [] false
        = ⟨.ok (), [], true, ⟨none, .missing⟩⟩
      ∧ loadRegistry (.acquired 0 0)
          ⟨none, .parsed (some (.vStr "1.0.0")) (some (.vStr "oops"))⟩ [] false
        = ⟨.error .invalidFormat, [], false,
            ⟨none, .parsed (some (.vStr "1.0.0")) (some (.vStr "oops"))⟩⟩ := by
  refine ⟨claim_C4_loadRegistry.1 none [] false, ?_⟩
  exact claim_C4_loadRegistry.2.1 none [] false (some (.vStr "1.0.0"))
    (some (.vStr "oops")) (fun xs h => by cases h)

/-- C5 (implicit): a fresh foreign lock makes `_acquireLock` time out; yet
`loadRegistry`'s `finally` block still deletes the lock file on the way out
of the failed call — removing the current holder's live lock — whereas
`saveRegistry`, whose acquisition sits before its `try`, leaves the holder's
lock file untouched when acquisition times out. -/
theorem claim_C5_loadRegistry_finally :
    acquireLoop (fun _ => .held 0) 0 100 0 0 = .timedOut
    ∧ (∀ (ts : Nat) (rf : RegFileState) (reg0 : Registry) (l0 : Bool),
      (loadRegistry .timedOut ⟨some (.held ts), rf⟩ reg0 l0).result
          = .error .lockTimeout
        ∧ (loadRegistry .timedOut ⟨some (.held ts), rf⟩ reg0 l0).world.lockFile
          = none)
    ∧ (∀ (ts : Nat) (rf : RegFileState) (reg : Registry)
        (w : Except String Unit),
      saveRegistryFS .timedOut ⟨some (.held ts), rf⟩ reg w
        = (.error .lockTimeout, ⟨some (.held ts), rf⟩)) := by
  exact ⟨by decide, fun ts rf reg0 l0 => ⟨rfl, rfl⟩, fun ts rf reg w => rfl⟩

/-- C5 witness: the holder's lock file (timestamp 0) is gone after the failed
`loadRegistry`, and still present after the failed `saveRegistryFS`. -/
theorem claim_C5_loadRegistry_finally_witness :
    (loadRegistry .timedOut ⟨some (.held 0), .missing⟩ [] false).world.lockFile
        = none
      ∧ saveRegistryFS .timedOut ⟨some (.held 0), .missing⟩ [] (.ok ())
        = (.error .lockTimeout, ⟨some (.held 0), .missing⟩) := by
  exact ⟨(claim_C5_loadRegistry_finally.2.1 0 .missing [] false).2,
    claim_C5_loadRegistry_finally.2.2 0 .missing [] (.ok ())⟩

/-- A successful query build certifies every processed id as valid. -/
theorem buildQueryGo_ok_valid : ∀ (idx : Nat) (l : List String)
    (res : List (Nat × String × String)), buildQueryGo idx l = .ok res →
    ∀ id ∈ l, badRepoId id = false
  | _, [], _, _, _, hin => by cases hin
  | idx, id0 :: rest, res, h, id, hin => by
    unfold buildQueryGo at h
    cases hp : splitOnChar '/' id0.data with
    | nil => rw [hp] at h; exact Except.noConfusion h
    | cons o t =>
      cases t with
      | nil => rw [hp] at h; exact Except.noConfusion h
      | cons r t2 =>
        rw [hp] at h
        dsimp only at h
        by_cases hc :
            (o.isEmpty || r.isEmpty || !safeNameTest o || !safeNameTest r) = true
        · rw [if_pos hc] at h
          exact Except.noConfusion h
        · rw [if_neg hc] at h
          rcases List.mem_cons.mp hin with hid | hid
          · subst hid
            simp [badRepoId, hp]
            simpa using hc
          · cases hrec : buildQueryGo (idx + 1) rest with
            | error e => rw [hrec] at h; exact Except.noConfusion h
            | ok res2 => exact buildQueryGo_ok_valid (idx + 1) rest res2 hrec id hid

/-- C7 counterexample: with eleven ids of which only the eleventh is invalid
(`"bad id!"` contains a space and a bang), `_buildGraphQLQuery` raises no
error — only the first 10 ids are validated — and `batchFetchExtensions`
proceeds to the GraphQL network call with the invalid id in hand. -/
theorem claim_C7_counterexample :
    (buildGraphQLQuery ["a/b", "a/b", "a/b", "a/b", "a/b", "a/b", "a/b", "a/b",
        "a/b", "a/b", "bad id!"]).isOk = true
    ∧ (batchFetchExtensions ["a/b", "a/b", "a/b", "a/b", "a/b", "a/b", "a/b",
        "a/b", "a/b", "a/b", "bad id!"] (.ok fun _ => none)
        (fun _ => none)).gqlCalled = true := by
  exact ⟨by decide, by decide⟩

/-- C7 (amended): building the batch query validates the owner and repo
tokens of each of the *first 10* ids (those included in the query) against
the allow-list and raises for any of them that fails, before any network
call; ids beyond the tenth are not validated.  If the GraphQL call fails for
any reason, the proxy falls back to one REST `getRepository` call per id,
and the result is exactly the per-id successes, failures being omitted. -/
theorem claim_C7_batchFetch :
    (∀ (ids : List String) (id : String), id ∈ ids.take 10 →
      badRepoId id = true → ∃ e, buildGraphQLQuery ids = .error e)
    ∧ (∀ (ids : List String) (gql : Except String (Nat → Option GqlRepo))
        (rest : String → Option RestRepo) (e : String),
      buildGraphQLQuery ids = .error e →
      batchFetchExtensions ids gql rest = ⟨.error e, false, false⟩)
    ∧ (∀ (ids : List String) (parts : List (Nat × String × String))
        (msg : String) (rest : String → Option RestRepo),
      buildGraphQLQuery ids = .ok parts →
      batchFetchExtensions ids (.error msg) rest
        = ⟨.ok (ids.filterMap fun id => (rest id).map restToMeta), true, true⟩) := by
  refine ⟨?_, ?_, ?_⟩
  · intro ids id hin hbad
    cases hq : buildGraphQLQuery ids with
    | error e => exact ⟨e, rfl⟩
    | ok res =>
      have := buildQueryGo_ok_valid 0 (ids.take 10) res hq id hin
      rw [hbad] at this
      exact Bool.noConfusion this
  · intro ids gql rest e h
    simp [batchFetchExtensions, h]
  · intro ids parts msg rest h
    simp [batchFetchExtensions, h]

/-- C7 witness: the validation clause fires on a bad first id, and the
fallback clause returns exactly the REST successes for a two-id batch where
one id fails. -/
theorem claim_C7_batchFetch_witness :
    (∃ e, buildGraphQLQuery ["bad id!", "a/b"] = .error e)
    ∧ batchFetchExtensions ["a/b", "c/d"] (.error "boom")
        (fun id => if id == "a/b" then
          some ⟨"b", "a", some "desc", 7, "2024-01-01"⟩ else none)
      = ⟨.ok [⟨"a/b", "b", "a", "desc", 7, "2024-01-01", none⟩], true, true⟩ := by
  constructor
  · exact claim_C7_batchFetch.1 ["bad id!", "a/b"] "bad id!" (by decide) (by decide)
  · have h := claim_C7_batchFetch.2.2 ["a/b", "c/d"] [(0, "a", "b"), (1, "c", "d")]
      "boom" (fun id => if id == "a/b" then
        some ⟨"b", "a", some "desc", 7, "2024-01-01"⟩ else none) (by rfl)
    rw [h]
    rfl

/-- Reading back a freshly written cache key yields the written value. -/
theorem cacheGet_cacheSet : ∀ (c : CacheStore) (k : String) (v : JSVal)
    (etag : Option String), cacheGet (cacheSet c k v etag) k = some v
  | [], k, v, etag => by simp [cacheSet, cacheGet]
  | e :: rest, k, v, etag => by
    by_cases hk : (e.1 == k) = true
    · simp [cacheSet, cacheGet, hk]
    · have hk' : (e.1 == k) = false := by
        cases hval : (e.1 == k) <;> simp_all
      simpa [cacheSet, cacheGet, hk'] using cacheGet_cacheSet rest k v etag

/-- C8 counterexample: the hit test is `if (cached)` — truthiness, not
presence.  A 200 JSON response whose body is `0` is written to the cache
(`data !== null`), yet the sequential repeat request finds the falsy cached
value, fails the truthiness test, and performs a second network call — the
claimed "exactly one underlying network call" is false for that pair. -/
theorem claim_C8_counterexample :
    (requestModel none "/repos/a/b" false []
        ⟨60, 60, 0, none⟩ 0
        ⟨200, ⟨some "W-etag", true, none, none, none⟩, "0", some (.vNum 0)⟩).networkCalled
      = true
    ∧ cacheGet (requestModel none "/repos/a/b" false []
        ⟨60, 60, 0, none⟩ 0
        ⟨200, ⟨some "W-etag", true, none, none, none⟩, "0", some (.vNum 0)⟩).cache
        (getCacheKey none "/repos/a/b") = some (.vNum 0)
    ∧ (requestModel none "/repos/a/b" false
        (requestModel none "/repos/a/b" false []
          ⟨60, 60, 0, none⟩ 0
          ⟨200, ⟨some "W-etag", true, none, none, none⟩, "0", some (.vNum 0)⟩).cache
        ⟨60, 60, 0, none⟩ 1
        ⟨200, ⟨some "W-etag", true, none, none, none⟩, "0", some (.vNum 0)⟩).networkCalled
      = true := by
  exact ⟨rfl, rfl, rfl⟩

/-- C8 (amended): with caching on, a cache hit whose cached value is truthy
returns it with no network call, while a cached falsy value fails the
`if (cached)` test and the request goes to the network again; a successful
200 JSON response (non-null data) is written through with its ETag; hence two
sequential requests for the same endpoint whose first returned a *truthy* 200
JSON value make exactly one network call; and a `skipCache` request always
reaches the network, whatever the response. -/
theorem claim_C8_requestCache :
    (∀ (pat : Option String) (endpoint : String) (cache : CacheStore)
        (rl : RateLimitState) (now : Nat) (resp : HttpResponse) (v : JSVal),
      cacheGet cache (getCacheKey pat endpoint) = some v → v.truthy = true →
      requestModel pat endpoint false cache rl now resp = ⟨.ok v, cache, rl, false⟩)
    ∧ (∀ (pat : Option String) (endpoint : String) (cache : CacheStore)
        (rl : RateLimitState) (now : Nat) (resp : HttpResponse) (v : JSVal),
      cacheGet cache (getCacheKey pat endpoint) = some v → v.truthy = false →
      (requestModel pat endpoint false cache rl now resp).networkCalled = true)
    ∧ (∀ (pat : Option String) (endpoint : String) (cache : CacheStore)
        (rl : RateLimitState) (now : Nat) (resp : HttpResponse) (v : JSVal),
      cacheGet cache (getCacheKey pat endpoint) = none →
      resp.statusCode = 200 → resp.headers.contentTypeJson = true →
      resp.body ≠ "" → resp.bodyParsed = some v → jsIsNull v = false →
      requestModel pat endpoint false cache rl now resp
        = ⟨.ok v, cacheSet cache (getCacheKey pat endpoint) v resp.headers.etag,
            updateRateLimitFromHeaders rl resp.headers, true⟩)
    ∧ (∀ (pat : Option String) (endpoint : String) (cache : CacheStore)
        (rl rl2 : RateLimitState) (now now2 : Nat) (resp resp2 : HttpResponse)
        (v : JSVal),
      cacheGet cache (getCacheKey pat endpoint) = none →
      resp.statusCode = 200 → resp.headers.contentTypeJson = true →
      resp.body ≠ "" → resp.bodyParsed = some v → jsIsNull v = false →
      v.truthy = true →
      (requestModel pat endpoint false cache rl now resp).networkCalled = true
        ∧ requestModel pat endpoint false
            (requestModel pat endpoint false cache rl now resp).cache
            rl2 now2 resp2
          = ⟨.ok v, (requestModel pat endpoint false cache rl now resp).cache,
              rl2, false⟩)
    ∧ (∀ (pat : Option String) (endpoint : String) (cache : CacheStore)
        (rl : RateLimitState) (now : Nat) (resp : HttpResponse),
      (requestModel pat endpoint true cache rl now resp).networkCalled = true) := by
  have hitCase : ∀ (pat : Option String) (endpoint : String) (cache : CacheStore)
      (rl : RateLimitState) (now : Nat) (resp : HttpResponse) (v : JSVal),
      cacheGet cache (getCacheKey pat endpoint) = some v → v.truthy = true →
      requestModel pat endpoint false cache rl now resp
        = ⟨.ok v, cache, rl, false⟩ := by
    intro pat endpoint cache rl now resp v h hv
    simp [requestModel, truthyHit, h, hv]
  have missCase : ∀ (pat : Option String) (endpoint : String) (cache : CacheStore)
      (rl : RateLimitState) (now : Nat) (resp : HttpResponse) (v : JSVal),
      cacheGet cache (getCacheKey pat endpoint) = none →
      resp.statusCode = 200 → resp.headers.contentTypeJson = true →
      resp.body ≠ "" → resp.bodyParsed = some v → jsIsNull v = false →
      requestModel pat endpoint false cache rl now resp
        = ⟨.ok v, cacheSet cache (getCacheKey pat endpoint) v resp.headers.etag,
            updateRateLimitFromHeaders rl resp.headers, true⟩ := by
    intro pat endpoint cache rl now resp v h hst hct hbody hparse hnull
    have hb : (resp.body == "") = false := beq_eq_false_iff_ne.mpr hbody
    simp [requestModel, truthyHit, h, hst, hct, hb, hbody, hparse, hnull]
  refine ⟨hitCase, ?_, missCase, ?_, ?_⟩
  · intro pat endpoint cache rl now resp v h hv
    unfold requestModel
    simp only [truthyHit, h, hv, Bool.false_eq_true, if_false]
    repeat' split
    all_goals rfl
  · intro pat endpoint cache rl rl2 now now2 resp resp2 v h hst hct hbody
      hparse hnull hv
    rw [missCase pat endpoint cache rl now resp v h hst hct hbody hparse hnull]
    exact ⟨rfl, hitCase pat endpoint _ rl2 now2 resp2 v
      (cacheGet_cacheSet cache (getCacheKey pat endpoint) v resp.headers.etag) hv⟩
  · intro pat endpoint cache rl now resp
    unfold requestModel
    dsimp only
    repeat' split
    all_goals first | rfl | simp_all

/-- C8 witness: a concrete truthy 200 JSON response is cached, the immediate
repeat call is served from the cache with no network call, and a `skipCache`
call on the same state reaches the network. -/
theorem claim_C8_requestCache_witness :
    (requestModel none "/repos/a/b" false []
        ⟨60, 60, 0, none⟩ 0
        ⟨200, ⟨some "W-etag", true, none, none, none⟩, "x", some (.vStr "x")⟩
      ).networkCalled = true
    ∧ requestModel none "/repos/a/b" false
        (requestModel none "/repos/a/b" false []
          ⟨60, 60, 0, none⟩ 0
          ⟨200, ⟨some "W-etag", true, none, none, none⟩, "x", some (.vStr "x")⟩).cache
        ⟨60, 60, 0, none⟩ 1
        ⟨500, ⟨none, false, none, none, none⟩, "", none⟩
      = ⟨.ok (.vStr "x"),
          (requestModel none "/repos/a/b" false []
            ⟨60, 60, 0, none⟩ 0
            ⟨200, ⟨some "W-etag", true, none, none, none⟩, "x", some (.vStr "x")⟩).cache,
          ⟨60, 60, 0, none⟩, false⟩
    ∧ (requestModel none "/rate_limit" true []
        ⟨60, 60, 0, none⟩ 0
        ⟨200, ⟨none, true, none, none, none⟩, "x", some (.vStr "x")⟩
      ).networkCalled = true := by
  refine ⟨?_, ?_, ?_⟩
  · exact (claim_C8_requestCache.2.2.2.1 none "/repos/a/b" [] ⟨60, 60, 0, none⟩
      ⟨60, 60, 0, none⟩ 0 1
      ⟨200, ⟨some "W-etag", true, none, none, none⟩, "x", some (.vStr "x")⟩
      ⟨500, ⟨none, false, none, none, none⟩, "", none⟩ (.vStr "x")
      rfl rfl rfl (by decide) rfl rfl (by decide)).1
  · exact (claim_C8_requestCache.2.2.2.1 none "/repos/a/b" [] ⟨60, 60, 0, none⟩
      ⟨60, 60, 0, none⟩ 0 1
      ⟨200, ⟨some "W-etag", true, none, none, none⟩, "x", some (.vStr "x")⟩
      ⟨500, ⟨none, false, none, none, none⟩, "", none⟩ (.vStr "x")
      rfl rfl rfl (by decide) rfl rfl (by decide)).2
  · exact claim_C8_requestCache.2.2.2.2 none "/rate_limit" [] ⟨60, 60, 0, none⟩ 0
      ⟨200, ⟨none, true, none, none, none⟩, "x", some (.vStr "x")⟩
/-- A prefix occurs as a substring. -/
theorem containsSub_of_leading {pat s : List Char} (h : pat <+: s) :
    containsSub pat s = true := by
  cases s with
  | nil =>
    have hp : pat = [] := List.prefix_nil.mp h
    simp [containsSub, hp]
  | cons c rest => simp [containsSub, List.isPrefixOf_iff_prefix, h]

/-- Substring occurrence survives prepending. -/
theorem containsSub_append_left : ∀ (a : List Char) {pat s : List Char},
    containsSub pat s = true → containsSub pat (a ++ s) = true
  | [], _, _, h => h
  | c :: a2, pat, s, h => by
    simp only [List.cons_append, containsSub, List.append_eq]
    rw [containsSub_append_left a2 h]
    simp

/-- A list occurs as a substring of any list it is spliced into. -/
theorem containsSub_middle (a pat b : List Char) :
    containsSub pat (a ++ (pat ++ b)) = true :=
  containsSub_append_left a (containsSub_of_leading (List.prefix_append pat b))

/-- `contains` is false off the member list. -/
theorem contains_false_of_not_mem {l : List String} {a : String} (h : a ∉ l) :
    l.contains a = false := by
  cases hc : l.contains a
  · rfl
  · obtain ⟨b, hb, hab⟩ := List.contains_iff_exists_mem_beq.mp hc
    exact absurd ((eq_of_beq hab) ▸ hb) h

/-- Removing a set of keys makes their lookup miss. -/
theorem getField_filter_out {fields : List (String × JSVal)} {S : List String}
    {f : String} (hf : f ∈ S) :
    (JSVal.vObj (fields.filter fun p => !S.contains p.1)).getField f = none := by
  unfold JSVal.getField
  dsimp only
  have hfind : List.find? (fun p => p.1 == f)
      (fields.filter fun p => !S.contains p.1) = none := by
    rw [List.find?_eq_none]
    intro x hx hbeq
    have hx2 := (List.mem_filter.mp hx).2
    have hxf : x.1 = f := by simpa using hbeq
    rw [hxf] at hx2
    have hcontains := List.elem_eq_true_of_mem hf
    simp only [List.contains] at hx2
    rw [hcontains] at hx2
    simp at hx2
  rw [hfind]
  rfl

/-- `find?` by key ignores a filter that removes only other keys. -/
theorem find_filter_preserved {S : List String} {f : String} (hf : f ∉ S) :
    ∀ (fields : List (String × JSVal)),
    List.find? (fun p => p.1 == f) (fields.filter fun p => !S.contains p.1)
      = List.find? (fun p => p.1 == f) fields := by
  intro fields
  induction fields with
  | nil => rfl
  | cons p rest ih =>
    simp only [List.filter_cons]
    by_cases hp : p.1 = f
    · have hkeep : (!S.contains p.1) = true := by
        rw [hp, contains_false_of_not_mem hf]
        rfl
      rw [if_pos hkeep]
      simp [List.find?_cons, hp]
    · have hne : (p.1 == f) = false := beq_eq_false_iff_ne.mpr hp
      cases hkeep : (!S.contains p.1) with
      | true =>
        rw [if_pos rfl]
        rw [List.find?_cons_of_neg _ (by simp [hne]),
          List.find?_cons_of_neg _ (by simp [hne])]
        exact ih
      | false =>
        rw [if_neg (by simp [hkeep])]
        rw [List.find?_cons_of_neg _ (by simp [hne])]
        exact ih

/-- Removing a set of keys leaves lookups of other keys intact. -/
theorem getField_filter_preserved {fields : List (String × JSVal)}
    {S : List String} {f : String} (hf : f ∉ S) :
    (JSVal.vObj (fields.filter fun p => !S.contains p.1)).getField f
      = (JSVal.vObj fields).getField f := by
  unfold JSVal.getField
  dsimp only
  rw [find_filter_preserved hf]

/-- The engines block only looks at the `engines` property. -/
theorem enginesErrorsOf_congr {m1 m2 : JSVal}
    (h : m1.getField "engines" = m2.getField "engines") :
    enginesErrorsOf m1 = enginesErrorsOf m2 := by
  unfold enginesErrorsOf
  rw [h]

/-- The engines block throws only on `engines: null`. -/
theorem enginesErrorsOf_ok_of_ne {m : JSVal}
    (h : m.getField "engines" ≠ some JSVal.vNull) :
    ∃ es, enginesErrorsOf m = Except.ok es := by
  unfold enginesErrorsOf
  split
  all_goals first
    | exact ⟨_, rfl⟩
    | (rename_i heq; exact absurd heq h)

/-- An `.ok` outcome needs an `.ok` engines block. -/
theorem enginesOk_of_validateOk {fields : List (String × JSVal)}
    {r : ValidationResult}
    (h : validateManifest (.vObj fields) = Except.ok r) :
    ∃ es, enginesErrorsOf (.vObj fields) = Except.ok es := by
  cases heng : enginesErrorsOf (.vObj fields) with
  | ok es => exact ⟨es, rfl⟩
  | error e =>
    exfalso
    unfold validateManifest manifestErrorsOf at h
    simp only [JSVal.truthy, JSVal.typeofObject, Bool.and_self, Bool.not_true,
      Bool.false_eq_true, if_false, heng] at h
    exact Except.noConfusion h

/-- With an `.ok` engines block, `validateManifest` returns the seven error
blocks appended in source order. -/
theorem validateManifest_isOk {fields : List (String × JSVal)}
    {es : List String}
    (he : enginesErrorsOf (.vObj fields) = Except.ok es) :
    validateManifest (.vObj fields)
      = Except.ok
          { valid := (requiredErrorsOf (.vObj fields)
                ++ typeErrorsOf (.vObj fields) ++ versionErrorsOf (.vObj fields)
                ++ optionalErrorsOf (.vObj fields) ++ es
                ++ permissionErrorsOf (.vObj fields)
                ++ keywordErrorsOf (.vObj fields)).isEmpty,
            errors := requiredErrorsOf (.vObj fields)
                ++ typeErrorsOf (.vObj fields) ++ versionErrorsOf (.vObj fields)
                ++ optionalErrorsOf (.vObj fields) ++ es
                ++ permissionErrorsOf (.vObj fields)
                ++ keywordErrorsOf (.vObj fields) } := by
  unfold validateManifest manifestErrorsOf
  simp only [JSVal.truthy, JSVal.typeofObject, Bool.and_self, Bool.not_true,
    Bool.false_eq_true, if_false, he]

/-- C10: on manifests whose `engines` field is not `null`, `validateManifest`
collects every violation in one pass: removing any non-empty set of required
fields from an object manifest it accepts as valid yields `valid:false` with,
for each removed field, an error string containing that field's name; and a
manifest simultaneously carrying an unsupported `type`, a non-semver
`version`, a non-array `permissions` and a non-array `keywords` gets all four
errors at once — none suppresses the others.  A manifest with `engines: null`
instead throws (`claim_C10_counterexample`). -/
theorem claim_C10_validateManifest :
    (∀ (fields : List (String × JSVal)) (r : ValidationResult) (S : List String),
      validateManifest (.vObj fields) = Except.ok r → r.valid = true → S ≠ [] →
      (∀ f ∈ S, f ∈ requiredManifestFields) →
      ∃ r2, validateManifest
          (.vObj (fields.filter fun p => !S.contains p.1)) = Except.ok r2
        ∧ r2.valid = false
        ∧ ∀ f ∈ S, ∃ e ∈ r2.errors, containsSub f.data e.data = true)
    ∧ (∀ (fields : List (String × JSVal)) (t v : String) (p kw : JSVal),
      (JSVal.vObj fields).getField "type" = some (.vStr t) → t ≠ "" →
      t ∉ validTypes →
      (JSVal.vObj fields).getField "version" = some (.vStr v) → v ≠ "" →
      semverTest v.data = false →
      (JSVal.vObj fields).getField "permissions" = some p → p.isArray = false →
      (JSVal.vObj fields).getField "keywords" = some kw → kw.isArray = false →
      (JSVal.vObj fields).getField "engines" ≠ some JSVal.vNull →
      ∃ r, validateManifest (.vObj fields) = Except.ok r
        ∧ r.valid = false
        ∧ ("Invalid type '" ++ t ++ "'. Must be one of: plugin, skill, command, agent")
            ∈ r.errors
        ∧ ("Invalid version format '" ++ v ++ "'. Must follow semver (e.g., 1.0.0)")
            ∈ r.errors
        ∧ "Field 'permissions' must be an array" ∈ r.errors
        ∧ "Field 'keywords' must be an array" ∈ r.errors) := by
  constructor
  · intro fields r S hok _hvalid hSne hSsub
    obtain ⟨es, heng⟩ := enginesOk_of_validateOk hok
    have hengNotIn : "engines" ∉ S := fun hm => absurd (hSsub _ hm) (by decide)
    have hengF : enginesErrorsOf
        (.vObj (fields.filter fun p => !S.contains p.1)) = Except.ok es := by
      rw [enginesErrorsOf_congr (getField_filter_preserved hengNotIn), heng]
    have herr : ∀ f ∈ S, ("Required field '" ++ f ++ "' is missing or invalid")
        ∈ requiredErrorsOf (.vObj (fields.filter fun p => !S.contains p.1)) := by
      intro f hf
      have hok2 : requiredFieldOk
          (.vObj (fields.filter fun p => !S.contains p.1)) f = false := by
        unfold requiredFieldOk
        rw [getField_filter_out hf]
      unfold requiredErrorsOf
      exact List.mem_filterMap.mpr ⟨f, hSsub f hf, by rw [hok2]; rfl⟩
    have hbig : ∀ f ∈ S, ("Required field '" ++ f ++ "' is missing or invalid")
        ∈ requiredErrorsOf (.vObj (fields.filter fun p => !S.contains p.1))
          ++ typeErrorsOf (.vObj (fields.filter fun p => !S.contains p.1))
          ++ versionErrorsOf (.vObj (fields.filter fun p => !S.contains p.1))
          ++ optionalErrorsOf (.vObj (fields.filter fun p => !S.contains p.1))
          ++ es
          ++ permissionErrorsOf (.vObj (fields.filter fun p => !S.contains p.1))
          ++ keywordErrorsOf (.vObj (fields.filter fun p => !S.contains p.1)) := by
      intro f hf
      apply List.mem_append_left
      apply List.mem_append_left
      apply List.mem_append_left
      apply List.mem_append_left
      apply List.mem_append_left
      apply List.mem_append_left
      exact herr f hf
    obtain ⟨f0, hf0⟩ := List.exists_mem_of_ne_nil S hSne
    refine ⟨_, validateManifest_isOk hengF, ?_, ?_⟩
    · dsimp only
      have hne := List.ne_nil_of_mem (hbig f0 hf0)
      simpa [List.isEmpty_iff] using hne
    · intro f hf
      refine ⟨_, hbig f hf, ?_⟩
      have hsplit : ("Required field '" ++ f ++ "' is missing or invalid").data
          = ("Required field '".data)
            ++ (f.data ++ ("' is missing or invalid").data) := by
        simp
      rw [hsplit]
      exact containsSub_middle _ _ _
  · intro fields t v p kw htf htne htmem hvf hvne hvsem hpf hparr hkf hkarr hengNe
    obtain ⟨es, heng⟩ := enginesErrorsOf_ok_of_ne hengNe
    have ht1 : (t != "") = true := bne_iff_ne.mpr htne
    have ht2 : validTypes.contains t = false := contains_false_of_not_mem htmem
    have hv1 : (v != "") = true := bne_iff_ne.mpr hvne
    have htype : typeErrorsOf (.vObj fields)
        = ["Invalid type '" ++ t
            ++ "'. Must be one of: plugin, skill, command, agent"] := by
      simp [typeErrorsOf, htf, JSVal.truthy, ht1, jsIncludesStr, htmem, JSVal.display]
    have hversion : versionErrorsOf (.vObj fields)
        = ["Invalid version format '" ++ v
            ++ "'. Must follow semver (e.g., 1.0.0)"] := by
      simp [versionErrorsOf, hvf, hv1, hvsem]
    have hp2 : "Field 'permissions' must be an array"
        ∈ permissionErrorsOf (.vObj fields) := by
      simp [permissionErrorsOf, hpf, hparr]
    have hk2 : "Field 'keywords' must be an array"
        ∈ keywordErrorsOf (.vObj fields) := by
      simp [keywordErrorsOf, hkf, hkarr]
    have hmT : ("Invalid type '" ++ t
          ++ "'. Must be one of: plugin, skill, command, agent")
        ∈ requiredErrorsOf (.vObj fields) ++ typeErrorsOf (.vObj fields)
          ++ versionErrorsOf (.vObj fields) ++ optionalErrorsOf (.vObj fields)
          ++ es ++ permissionErrorsOf (.vObj fields)
          ++ keywordErrorsOf (.vObj fields) := by
      simp [List.mem_append, htype]
    have hmV : ("Invalid version format '" ++ v
          ++ "'. Must follow semver (e.g., 1.0.0)")
        ∈ requiredErrorsOf (.vObj fields) ++ typeErrorsOf (.vObj fields)
          ++ versionErrorsOf (.vObj fields) ++ optionalErrorsOf (.vObj fields)
          ++ es ++ permissionErrorsOf (.vObj fields)
          ++ keywordErrorsOf (.vObj fields) := by
      simp [List.mem_append, hversion]
    have hmP : "Field 'permissions' must be an array"
        ∈ requiredErrorsOf (.vObj fields) ++ typeErrorsOf (.vObj fields)
          ++ versionErrorsOf (.vObj fields) ++ optionalErrorsOf (.vObj fields)
          ++ es ++ permissionErrorsOf (.vObj fields)
          ++ keywordErrorsOf (.vObj fields) :=
      List.mem_append_left _ (List.mem_append_right _ hp2)
    have hmK : "Field 'keywords' must be an array"
        ∈ requiredErrorsOf (.vObj fields) ++ typeErrorsOf (.vObj fields)
          ++ versionErrorsOf (.vObj fields) ++ optionalErrorsOf (.vObj fields)
          ++ es ++ permissionErrorsOf (.vObj fields)
          ++ keywordErrorsOf (.vObj fields) :=
      List.mem_append_right _ hk2
    refine ⟨_, validateManifest_isOk heng, ?_, hmT, hmV, hmP, hmK⟩
    dsimp only
    have hne := List.ne_nil_of_mem hmT
    simpa [List.isEmpty_iff] using hne

/-- C10 counterexample: a manifest whose `engines` field is `null` makes
`validateManifest` throw a `TypeError` (reading `claude-code` on `null`)
instead of returning a `{ valid, errors }` report — even though it also
carries an unsupported `type` whose violation the spec says is collected
into the errors list along with the rest. -/
theorem claim_C10_counterexample :
    validateManifest (.vObj [("type", .vStr "widget"), ("name", .vStr "x"),
        ("version", .vStr "1.0.0"), ("description", .vStr "d"),
        ("author", .vStr "a"), ("engines", .vNull)])
      = Except.error
          "TypeError: Cannot read properties of null (reading 'claude-code')" := by
  rfl

/-- C10 witness: dropping `version` from a valid manifest invalidates it with
an error naming the field, and a manifest with four simultaneous violations
(and no `engines` field) reports all four errors. -/
theorem claim_C10_validateManifest_witness :
    (∃ r2, validateManifest (.vObj ([("type", JSVal.vStr "plugin"),
        ("name", JSVal.vStr "x"), ("version", JSVal.vStr "1.0.0"),
        ("description", JSVal.vStr "d"), ("author", JSVal.vStr "a")].filter
          fun p => !(["version"].contains p.1))) = Except.ok r2
      ∧ r2.valid = false
      ∧ ∃ e ∈ r2.errors, containsSub "version".data e.data = true)
    ∧ (∃ r, validateManifest (.vObj [("type", JSVal.vStr "widget"),
        ("name", JSVal.vStr "x"), ("version", JSVal.vStr "not-a-version"),
        ("description", JSVal.vStr "d"), ("author", JSVal.vStr "a"),
        ("permissions", JSVal.vStr "read"),
        ("keywords", JSVal.vNum 3)]) = Except.ok r
      ∧ r.valid = false
      ∧ "Field 'permissions' must be an array" ∈ r.errors
      ∧ "Field 'keywords' must be an array" ∈ r.errors) := by
  constructor
  · obtain ⟨r2, h1, h2, h3⟩ := claim_C10_validateManifest.1
      [("type", JSVal.vStr "plugin"), ("name", JSVal.vStr "x"),
        ("version", JSVal.vStr "1.0.0"), ("description", JSVal.vStr "d"),
        ("author", JSVal.vStr "a")]
      ⟨true, []⟩ ["version"] rfl rfl (by decide) (by decide)
    exact ⟨r2, h1, h2, h3 "version" (by decide)⟩
  · obtain ⟨r, h1, h2, _h3, _h4, h5, h6⟩ := claim_C10_validateManifest.2
      [("type", JSVal.vStr "widget"), ("name", JSVal.vStr "x"),
        ("version", JSVal.vStr "not-a-version"), ("description", JSVal.vStr "d"),
        ("author", JSVal.vStr "a"), ("permissions", JSVal.vStr "read"),
        ("keywords", JSVal.vNum 3)]
      "widget" "not-a-version" (JSVal.vStr "read") (JSVal.vNum 3)
      rfl (by decide) (by decide) rfl (by decide) rfl rfl rfl rfl rfl
      (fun h => Option.noConfusion h)
    exact ⟨r, h1, h2, h5, h6⟩

end Marketplace
